import Mathlib

/-!
Verification development for the tiny-physics-engine repository (2D rigid-body
physics, Rust). The Rust sources are shallowly embedded over `ℚ`: every `f32`
value is modelled as an exact rational, `f32` arithmetic as exact rational
arithmetic. The std-library primitives `f32::cos`, `f32::sin` and `f32::sqrt`
are not repository code; definitions that need them take them as explicit
function parameters (`cosf`, `sinf`, `sqrtf`), so every definition stays
computable and theorems quantify over the actual trigonometric functions.

Source files embedded here:
  src/math/vec.rs, src/math/mat.rs        (Vec2, Mat2)
  src/core/collision/shape.rs             (Collider2D, Aabb)
  src/core/collision/manifold.rs          (ContactPoint, Manifold)
  src/core/collision/circle_circle.rs     (circle_circle::detect)
  src/core/collision/box_box.rs           (box_box::detect)
  src/core/collision/broad_phase.rs       (entity_aabb, detect_sap)
  src/core/collision/narrow_phase.rs      (build_manifold_for_pair, detect)
  src/core/solver/constraint.rs           (ContactConstraint, ConstraintSolver)
  src/core/params.rs                      (SimParams)
  src/core/entity.rs                      (PhysicalEntity: clear_forces, clear_torque)
  src/core/body/rigid_body.rs, particle.rs (entity state fields)
  src/core/integrator.rs                  (integrate_velocity)
  src/core/world.rs                       (World::new, World::step)

A handful of small vector helpers (`length_squared`, `perp`, `cross`,
`try_normalize`) are called by the sources but their definitions are missing
from src/ (src/math/vec.rs is a stale snapshot that predates them); they are
modelled from the spec and marked as such.
-/

namespace TinyPhys

/-- Two-component vector, embedding `Vec2` from src/math/vec.rs (fields `x`, `y`). -/
structure Vec2 where
  x : ℚ
  y : ℚ
deriving DecidableEq, Repr

/-- Componentwise addition (`impl Add for Vec2`). -/
def Vec2.add (a b : Vec2) : Vec2 := ⟨a.x + b.x, a.y + b.y⟩

/-- Componentwise subtraction (`impl Sub for Vec2`). -/
def Vec2.sub (a b : Vec2) : Vec2 := ⟨a.x - b.x, a.y - b.y⟩

/-- Componentwise negation (`impl Neg for Vec2`). -/
def Vec2.neg (a : Vec2) : Vec2 := ⟨-a.x, -a.y⟩

/-- Scalar multiplication `v * s` (`impl Mul<f32> for Vec2`). -/
def Vec2.scale (a : Vec2) (s : ℚ) : Vec2 := ⟨a.x * s, a.y * s⟩

/-- Scalar division `v / s` (`impl Div<f32> for Vec2`). -/
def Vec2.divScalar (a : Vec2) (s : ℚ) : Vec2 := ⟨a.x / s, a.y / s⟩

instance : Add Vec2 := ⟨Vec2.add⟩

instance : Sub Vec2 := ⟨Vec2.sub⟩

instance : Neg Vec2 := ⟨Vec2.neg⟩

instance : HMul Vec2 ℚ Vec2 := ⟨Vec2.scale⟩

instance : HMul ℚ Vec2 Vec2 := ⟨fun s v => Vec2.scale v s⟩

instance : HDiv Vec2 ℚ Vec2 := ⟨Vec2.divScalar⟩

/-- Unfolding lemma for vector addition. -/
@[simp] theorem Vec2.add_def (a b : Vec2) : a + b = ⟨a.x + b.x, a.y + b.y⟩ := rfl

/-- Unfolding lemma for vector subtraction. -/
@[simp] theorem Vec2.sub_def (a b : Vec2) : a - b = ⟨a.x - b.x, a.y - b.y⟩ := rfl

/-- Unfolding lemma for vector negation. -/
@[simp] theorem Vec2.neg_def (a : Vec2) : -a = ⟨-a.x, -a.y⟩ := rfl

/-- Unfolding lemma for right scalar multiplication. -/
@[simp] theorem Vec2.scale_def (a : Vec2) (s : ℚ) :
    a * s = (⟨a.x * s, a.y * s⟩ : Vec2) := rfl

/-- Unfolding lemma for left scalar multiplication. -/
@[simp] theorem Vec2.scale_left_def (s : ℚ) (a : Vec2) :
    s * a = (⟨a.x * s, a.y * s⟩ : Vec2) := rfl

/-- Unfolding lemma for scalar division. -/
@[simp] theorem Vec2.div_def (a : Vec2) (s : ℚ) :
    a / s = (⟨a.x / s, a.y / s⟩ : Vec2) := rfl

/-- Constructor `Vec2::new(x, y)`. -/
def Vec2.mk' (x y : ℚ) : Vec2 := ⟨x, y⟩

/-- Constant `Vec2::zero()`. -/
def Vec2.zero : Vec2 := ⟨0, 0⟩

/-- Dot product `Vec2::dot` from src/math/vec.rs. -/
def Vec2.dot (a b : Vec2) : ℚ := a.x * b.x + a.y * b.y

/-- Modelled from the spec: `Vec2::length_squared` is called by the collision
sources but missing from src/math/vec.rs. The spec's vector primitives give
`|v|² = v·v`. -/
def Vec2.length_squared (v : Vec2) : ℚ := v.x * v.x + v.y * v.y

/-- Modelled from the spec: `Vec2::perp` (90° counter-clockwise rotation) is
called by the sources but missing from src/math/vec.rs. The solver's use
(`velocity_at` adds `ω·perp r = (-ω·r.y, ω·r.x)`, constraint.rs:217) fixes the
orientation `perp (x, y) = (-y, x)`. -/
def Vec2.perp (v : Vec2) : Vec2 := ⟨-v.y, v.x⟩

/-- Modelled from the spec: `Vec2::cross` (2D scalar cross product) is called
by the sources but missing from src/math/vec.rs. -/
def Vec2.cross (a b : Vec2) : ℚ := a.x * b.y - a.y * b.x

/-- Modelled from the spec: `Vec2::try_normalize` is called by
circle_circle.rs but missing from src/math/vec.rs. Per the spec's
circle/circle rule it fails exactly when the length is below `1e-6`
(stated here on the squared length to stay inside `ℚ`); on success it
returns `v / |v|`, with `|v| = sqrt (|v|²)` supplied by the `sqrtf` oracle. -/
def Vec2.try_normalize (sqrtf : ℚ → ℚ) (v : Vec2) : Option Vec2 :=
  if v.length_squared < 1 / 1000000000000 then none
  else some (v / sqrtf v.length_squared)

/-- A 2×2 matrix in row-major layout, embedding `Mat2` from src/math/mat.rs. -/
structure Mat2 where
  m00 : ℚ
  m01 : ℚ
  m10 : ℚ
  m11 : ℚ
deriving DecidableEq, Repr

/-- Rotation matrix `Mat2::rotation(radians)` (src/math/mat.rs:24-30); the
std primitives `f32::cos` / `f32::sin` are abstracted as `cosf` / `sinf`. -/
def Mat2.rotation (cosf sinf : ℚ → ℚ) (radians : ℚ) : Mat2 :=
  ⟨cosf radians, -(sinf radians), sinf radians, cosf radians⟩

/-- Transpose `Mat2::transpose` (src/math/mat.rs:38-40). -/
def Mat2.transpose (m : Mat2) : Mat2 := ⟨m.m00, m.m10, m.m01, m.m11⟩

/-- Matrix-vector product `Mat2::mul_vec2` (src/math/mat.rs:62-67). -/
def Mat2.mul_vec2 (m : Mat2) (v : Vec2) : Vec2 :=
  ⟨m.m00 * v.x + m.m01 * v.y, m.m10 * v.x + m.m11 * v.y⟩

/-- Matrix product `Mat2::mul_mat2` (src/math/mat.rs:69-77). -/
def Mat2.mul_mat2 (m r : Mat2) : Mat2 :=
  ⟨m.m00 * r.m00 + m.m01 * r.m10, m.m00 * r.m01 + m.m01 * r.m11,
   m.m10 * r.m00 + m.m11 * r.m10, m.m10 * r.m01 + m.m11 * r.m11⟩

/-- Axis-aligned bounding box (`Aabb`, src/core/collision/shape.rs:8-11). -/
structure Aabb where
  min : Vec2
  max : Vec2
deriving DecidableEq, Repr

/-- Overlap test `Aabb::overlaps` (src/core/collision/shape.rs:17-22). -/
def Aabb.overlaps (a other : Aabb) : Bool :=
  !(decide (a.max.x < other.min.x) || decide (a.min.x > other.max.x)
    || decide (a.max.y < other.min.y) || decide (a.min.y > other.max.y))

/-- Shape descriptor `Collider2D` (src/core/collision/shape.rs:3-6). -/
inductive Collider2D where
  | circle (radius : ℚ)
  | box (half_extents : Vec2)
deriving DecidableEq, Repr

/-- World-space bounding box `Collider2D::aabb` (src/core/collision/shape.rs:40-55).
The box branch takes `|cos θ|`, `|sin θ|` through the trig oracles. -/
def Collider2D.aabb (cosf sinf : ℚ → ℚ) (c : Collider2D) (pos : Vec2) (angle : ℚ) : Aabb :=
  match c with
  | .circle radius => ⟨pos - ⟨radius, radius⟩, pos + ⟨radius, radius⟩⟩
  | .box half_extents =>
    let c' := |cosf angle|
    let s' := |sinf angle|
    let ex := c' * half_extents.x + s' * half_extents.y
    let ey := s' * half_extents.x + c' * half_extents.y
    ⟨pos - ⟨ex, ey⟩, pos + ⟨ex, ey⟩⟩

/-- Contact point (`ContactPoint`, src/core/collision/manifold.rs:5-12);
`penetration` is positive when overlapping, negative when separated. -/
structure ContactPoint where
  point : Vec2
  penetration : ℚ
deriving DecidableEq, Repr

/-- Collision manifold (`Manifold`, src/core/collision/manifold.rs:16-27). -/
structure Manifold where
  a : ℕ
  b : ℕ
  normal : Vec2
  tangent : Vec2
  points : List ContactPoint
deriving DecidableEq, Repr

/-- Constructor `Manifold::new` (src/core/collision/manifold.rs:30-39):
the tangent is `perp normal`. -/
def Manifold.new (a b : ℕ) (normal : Vec2) (points : List ContactPoint) : Manifold :=
  ⟨a, b, normal, normal.perp, points⟩

/-- Circle/circle narrow phase, `circle_circle::detect`
(src/core/collision/circle_circle.rs:7-36). Note that this function gates on
`dist_sq > radius_sum²` only and takes no speculative distance, although its
caller (src/core/collision/narrow_phase.rs:20-26) passes
`params.speculative_distance` as a fifth argument. -/
def circle_circle_detect (sqrtf : ℚ → ℚ) (center_a : Vec2) (radius_a : ℚ)
    (center_b : Vec2) (radius_b : ℚ) : Option (Vec2 × ContactPoint) :=
  let delta := center_b - center_a
  let dist_sq := delta.length_squared
  let radius_sum := radius_a + radius_b
  if dist_sq > radius_sum * radius_sum then none
  else
    let np : Vec2 × ℚ :=
      match delta.try_normalize sqrtf with
      | some n => (n, radius_sum - sqrtf dist_sq)
      | none => (⟨1, 0⟩, radius_sum)
    let contact_point := center_a + np.1 * radius_a
    some (np.1, ⟨contact_point, np.2⟩)

/-- Entity kinds: the `PhysicalEntity` implementations in the repository are
exactly `RigidBody` (src/core/body/rigid_body.rs) and `Particle`
(src/core/body/particle.rs); the broad phase distinguishes them by downcast. -/
inductive EntityKind where
  | rigid
  | particle
deriving DecidableEq, Repr

/-- Entity state: the fields shared by `RigidBody` and `Particle` through the
`PhysicalEntity` accessors (src/core/entity.rs, src/core/body/rigid_body.rs:5-18).
The per-body `delta_pos` / `delta_angle` fields of the Rust structs are unused
by the embedded code paths (the solver keeps its own delta arrays) and omitted;
`collider` is `none` for particles (`Particle` has no collider field). -/
structure Body where
  pos : Vec2
  vel : Vec2
  force : Vec2
  inv_mass : ℚ
  angle : ℚ
  omega : ℚ
  torque : ℚ
  inv_inertia : ℚ
  collider : Option Collider2D
  kind : EntityKind
deriving DecidableEq, Repr

/-- Constant `SPECULATIVE_DISTANCE = 0.05` (src/core/collision/broad_phase.rs:10). -/
def SPECULATIVE_DISTANCE : ℚ := 1 / 20

/-- Fat AABB per entity, `entity_aabb` (src/core/collision/broad_phase.rs:12-39):
a rigid body's collider AABB inflated by the speculative distance, a `±0.05` box
for a rigid body without collider, and an inflated radius-`0.05` circle AABB for
a particle. (The Rust `±0.01` fallback for other entity types is unreachable:
`RigidBody` and `Particle` are the only `PhysicalEntity` implementations.) -/
def entity_aabb (cosf sinf : ℚ → ℚ) (e : Body) : Aabb :=
  match e.kind with
  | .rigid =>
    match e.collider with
    | some col =>
      let aabb := col.aabb cosf sinf e.pos e.angle
      let ext : Vec2 := ⟨SPECULATIVE_DISTANCE, SPECULATIVE_DISTANCE⟩
      ⟨aabb.min - ext, aabb.max + ext⟩
    | none =>
      let ext : Vec2 := ⟨1 / 20, 1 / 20⟩
      ⟨e.pos - ext, e.pos + ext⟩
  | .particle =>
    let aabb := (Collider2D.circle (1 / 20)).aabb cosf sinf e.pos e.angle
    let ext : Vec2 := ⟨SPECULATIVE_DISTANCE, SPECULATIVE_DISTANCE⟩
    ⟨aabb.min - ext, aabb.max + ext⟩

/-- Loop body of the sweep in `detect_sap` (src/core/collision/broad_phase.rs:67-80):
evict active entries with `max.x < cur.min.x`, emit a canonically ordered pair
for every remaining active entry overlapping `cur`, then push `cur`. -/
def sap_step (st : List (ℕ × Aabb) × List (ℕ × ℕ)) (cur : ℕ × Aabb) :
    List (ℕ × Aabb) × List (ℕ × ℕ) :=
  let active := st.1.filter (fun e => decide (cur.2.min.x ≤ e.2.max.x))
  let emitted := (active.filter (fun e => e.2.overlaps cur.2)).map
    (fun e => if e.1 < cur.1 then (e.1, cur.1) else (cur.1, e.1))
  (active ++ [cur], st.2 ++ emitted)

/-- Broad phase `detect_sap` (src/core/collision/broad_phase.rs:41-83): build
`(index, fat AABB)` entries, sort them by `min.x` (a stable sort, like Rust's
`sort_by`; the `partial_cmp … unwrap_or(Equal)` comparator is total `≤` on ℚ),
then sweep with an active list. -/
def detect_sap (cosf sinf : ℚ → ℚ) (entities : List Body) : List (ℕ × ℕ) :=
  let entries := (entities.map (entity_aabb cosf sinf)).enum
  let sorted := entries.mergeSort (fun a b => decide (a.2.min.x ≤ b.2.min.x))
  (sorted.foldl sap_step ([], [])).2

/-- Unfolding of the overlap test into its four interval conditions. -/
theorem overlaps_iff (a b : Aabb) :
    a.overlaps b = true ↔
      (b.min.x ≤ a.max.x ∧ a.min.x ≤ b.max.x ∧ b.min.y ≤ a.max.y ∧ a.min.y ≤ b.max.y) := by
  simp only [Aabb.overlaps, Bool.not_eq_eq_eq_not, Bool.not_true, Bool.or_eq_false_iff,
    decide_eq_false_iff_not, not_lt]
  tauto

/-- Overlap is symmetric. -/
theorem overlaps_comm {a b : Aabb} (h : a.overlaps b = true) : b.overlaps a = true := by
  rw [overlaps_iff] at h ⊢
  tauto

/-- Pairs already emitted survive the rest of the sweep. -/
theorem sap_mono (rest : List (ℕ × Aabb)) (st : List (ℕ × Aabb) × List (ℕ × ℕ))
    (p : ℕ × ℕ) (hp : p ∈ st.2) : p ∈ (rest.foldl sap_step st).2 := by
  induction rest generalizing st with
  | nil => exact hp
  | cons r rest ih =>
    rw [List.foldl_cons]
    exact ih _ (List.mem_append_left _ hp)

/-- Processing `cur` emits the canonical pair for each overlapping active entry. -/
theorem sap_emit_now {st : List (ℕ × Aabb) × List (ℕ × ℕ)} {e cur : ℕ × Aabb}
    (he : e ∈ st.1) (hov : e.2.overlaps cur.2 = true) :
    (if e.1 < cur.1 then (e.1, cur.1) else (cur.1, e.1)) ∈ (sap_step st cur).2 := by
  have hkeep : cur.2.min.x ≤ e.2.max.x := ((overlaps_iff _ _).mp hov).1
  refine List.mem_append_right _ ?_
  refine List.mem_map.mpr ⟨e, ?_, rfl⟩
  exact List.mem_filter.mpr ⟨List.mem_filter.mpr ⟨he, by simpa using hkeep⟩, hov⟩

/-- An active entry whose right edge reaches `cur` survives the eviction. -/
theorem sap_survive {st : List (ℕ × Aabb) × List (ℕ × ℕ)} {e cur : ℕ × Aabb}
    (he : e ∈ st.1) (hkeep : cur.2.min.x ≤ e.2.max.x) : e ∈ (sap_step st cur).1 := by
  exact List.mem_append_left _ (List.mem_filter.mpr ⟨he, by simpa using hkeep⟩)

/-- Completeness of the sweep against an entry that is already active: on a
remainder sorted by `min.x`, an active entry overlapping some upcoming entry is
never evicted before that entry is processed, and the pair is emitted. -/
theorem sap_complete_active (rest : List (ℕ × Aabb))
    (hs : rest.Pairwise (fun a b => a.2.min.x ≤ b.2.min.x)) :
    ∀ (st : List (ℕ × Aabb) × List (ℕ × ℕ)) (e cur : ℕ × Aabb), e ∈ st.1 → cur ∈ rest →
      e.2.overlaps cur.2 = true →
      (if e.1 < cur.1 then (e.1, cur.1) else (cur.1, e.1)) ∈ (rest.foldl sap_step st).2 := by
  induction rest with
  | nil => intro st e cur _ hcur; exact absurd hcur (List.not_mem_nil cur)
  | cons r rest ih =>
    intro st e cur he hcur hov
    rw [List.foldl_cons]
    rcases List.mem_cons.mp hcur with rfl | hcur'
    · exact sap_mono rest _ _ (sap_emit_now he hov)
    · have hr_le : r.2.min.x ≤ cur.2.min.x := (List.pairwise_cons.mp hs).1 cur hcur'
      have hcm : cur.2.min.x ≤ e.2.max.x := ((overlaps_iff _ _).mp hov).1
      exact ih (List.pairwise_cons.mp hs).2 _ e cur
        (sap_survive he (le_trans hr_le hcm)) hcur' hov

/-- Completeness of the sweep for two entries of the (sorted) remainder, given
in traversal order as a two-element sublist. -/
theorem sap_complete_rest (rest : List (ℕ × Aabb))
    (hs : rest.Pairwise (fun a b => a.2.min.x ≤ b.2.min.x)) :
    ∀ (st : List (ℕ × Aabb) × List (ℕ × ℕ)) (a b : ℕ × Aabb), [a, b].Sublist rest →
      a.2.overlaps b.2 = true →
      (if a.1 < b.1 then (a.1, b.1) else (b.1, a.1)) ∈ (rest.foldl sap_step st).2 := by
  induction rest with
  | nil => intro st a b hsub; simp at hsub
  | cons r rest ih =>
    intro st a b hsub hov
    cases hsub with
    | cons _ h =>
      rw [List.foldl_cons]
      exact ih (List.pairwise_cons.mp hs).2 _ a b h hov
    | cons₂ _ h =>
      rw [List.foldl_cons]
      have hb : b ∈ rest := h.subset (List.mem_singleton_self b)
      have hr : r ∈ (sap_step st r).1 :=
        List.mem_append_right _ (List.mem_singleton_self r)
      exact sap_complete_active rest (List.pairwise_cons.mp hs).2 _ r b hr hb hov

/-- Two distinct members of a list occur, in one order or the other, as a
two-element sublist. -/
theorem pair_sublist_of_mem {α : Type} {L : List α} {x y : α} (hne : x ≠ y)
    (hx : x ∈ L) (hy : y ∈ L) : [x, y].Sublist L ∨ [y, x].Sublist L := by
  induction L with
  | nil => exact absurd hx (List.not_mem_nil x)
  | cons c L ih =>
    by_cases hxc : x = c
    · subst hxc
      have hy' : y ∈ L := by
        rcases List.mem_cons.mp hy with rfl | h
        · exact absurd rfl hne
        · exact h
      exact Or.inl ((List.singleton_sublist.mpr hy').cons₂ x)
    · by_cases hyc : y = c
      · subst hyc
        have hx' : x ∈ L := by
          rcases List.mem_cons.mp hx with rfl | h
          · exact absurd rfl hne
          · exact h
        exact Or.inr ((List.singleton_sublist.mpr hx').cons₂ y)
      · have hx' : x ∈ L := by
          rcases List.mem_cons.mp hx with rfl | h
          · exact absurd rfl hxc
          · exact h
        have hy' : y ∈ L := by
          rcases List.mem_cons.mp hy with rfl | h
          · exact absurd rfl hyc
          · exact h
        exact (ih hx' hy').imp (List.Sublist.cons c) (List.Sublist.cons c)

/-- The sweep only ever emits pairs `(i, j)` with `i < j`, provided the
remaining entries carry indices distinct from each other and from every
active entry. -/
theorem sap_ordered (rest : List (ℕ × Aabb))
    (hd : rest.Pairwise (fun a b => a.1 ≠ b.1)) :
    ∀ (st : List (ℕ × Aabb) × List (ℕ × ℕ)),
      (∀ p ∈ st.2, p.1 < p.2) → (∀ e ∈ st.1, ∀ c ∈ rest, e.1 ≠ c.1) →
      ∀ p ∈ (rest.foldl sap_step st).2, p.1 < p.2 := by
  induction rest with
  | nil => intro st hp _; exact hp
  | cons r rest ih =>
    intro st hp hact
    rw [List.foldl_cons]
    refine ih (List.pairwise_cons.mp hd).2 _ ?_ ?_
    · intro p hmem
      rcases List.mem_append.mp hmem with h | h
      · exact hp p h
      · rcases List.mem_map.mp h with ⟨e, hef, rfl⟩
        have he : e ∈ st.1 := (List.mem_filter.mp (List.mem_filter.mp hef).1).1
        have hne : e.1 ≠ r.1 := hact e he r (List.mem_cons_self r rest)
        by_cases hlt : e.1 < r.1
        · simp only [if_pos hlt]
          exact hlt
        · have hgt : r.1 < e.1 := lt_of_le_of_ne (not_lt.mp hlt) (Ne.symm hne)
          simp only [if_neg hlt]
          exact hgt
    · intro e hmem c hc
      rcases List.mem_append.mp hmem with h | h
      · exact hact e (List.mem_filter.mp h).1 c (List.mem_cons_of_mem r hc)
      · rw [List.mem_singleton.mp h]
        exact (List.pairwise_cons.mp hd).1 c hc

/-- C2. Broad-phase contract of `detect_sap`: (completeness) every pair of
distinct indices whose inflated bounding boxes overlap on both axes is
reported in canonical order; (ordering) every emitted pair satisfies `i < j`;
(no self-pairs) `(i, i)` is never emitted; (no double emission) an unordered
pair never appears in both orders. -/
theorem detect_sap_contract (cosf sinf : ℚ → ℚ) (entities : List Body) :
    (∀ i j, ∀ hij : i < j, ∀ hj : j < entities.length,
      (entity_aabb cosf sinf (entities.get ⟨i, hij.trans hj⟩)).overlaps
          (entity_aabb cosf sinf (entities.get ⟨j, hj⟩)) = true →
        (i, j) ∈ detect_sap cosf sinf entities) ∧
    (∀ p ∈ detect_sap cosf sinf entities, p.1 < p.2) ∧
    (∀ k : ℕ, (k, k) ∉ detect_sap cosf sinf entities) ∧
    (∀ p ∈ detect_sap cosf sinf entities, (p.2, p.1) ∉ detect_sap cosf sinf entities) := by
  have htrans : ∀ a b c : ℕ × Aabb,
      decide (a.2.min.x ≤ b.2.min.x) → decide (b.2.min.x ≤ c.2.min.x) →
      decide (a.2.min.x ≤ c.2.min.x) := by
    intro a b c hab hbc
    simp only [decide_eq_true_eq] at hab hbc ⊢
    exact le_trans hab hbc
  have htotal : ∀ a b : ℕ × Aabb,
      decide (a.2.min.x ≤ b.2.min.x) || decide (b.2.min.x ≤ a.2.min.x) := by
    intro a b
    rcases le_total a.2.min.x b.2.min.x with h | h
    · simp [h]
    · simp [h]
  have hs : ((entities.map (entity_aabb cosf sinf)).enum.mergeSort
        (fun a b => decide (a.2.min.x ≤ b.2.min.x))).Pairwise
      (fun a b : ℕ × Aabb => a.2.min.x ≤ b.2.min.x) := by
    have h := @List.sorted_mergeSort _ (fun a b : ℕ × Aabb => decide (a.2.min.x ≤ b.2.min.x))
      htrans htotal (entities.map (entity_aabb cosf sinf)).enum
    exact h.imp (fun hab => by simpa using hab)
  have hperm := List.mergeSort_perm (entities.map (entity_aabb cosf sinf)).enum
    (fun a b => decide (a.2.min.x ≤ b.2.min.x))
  have hd : ((entities.map (entity_aabb cosf sinf)).enum.mergeSort
        (fun a b => decide (a.2.min.x ≤ b.2.min.x))).Pairwise
      (fun a b : ℕ × Aabb => a.1 ≠ b.1) := by
    have h1 : ((entities.map (entity_aabb cosf sinf)).enum.map Prod.fst).Nodup :=
      List.nodup_enum_map_fst _
    have h2 : (((entities.map (entity_aabb cosf sinf)).enum.mergeSort
        (fun a b => decide (a.2.min.x ≤ b.2.min.x))).map Prod.fst).Nodup :=
      ((hperm.map Prod.fst).nodup_iff).mpr h1
    exact List.pairwise_map.mp h2
  have hordered : ∀ p ∈ detect_sap cosf sinf entities, p.1 < p.2 := by
    intro p hp
    refine sap_ordered _ hd ([], []) ?_ ?_ p hp
    · intro q hq
      exact absurd hq (List.not_mem_nil q)
    · intro e he
      exact absurd he (List.not_mem_nil e)
  refine ⟨?_, hordered, ?_, ?_⟩
  · intro i j hij hj hov
    have hi : i < entities.length := hij.trans hj
    have hja : j < (entities.map (entity_aabb cosf sinf)).length := by
      simpa using hj
    have hia : i < (entities.map (entity_aabb cosf sinf)).length := by
      simpa using hi
    have hei : ((i, (entities.map (entity_aabb cosf sinf)).get ⟨i, hia⟩) : ℕ × Aabb)
        ∈ (entities.map (entity_aabb cosf sinf)).enum := by
      rw [List.mk_mem_enum_iff_getElem?]
      simp [List.getElem?_eq_getElem hia]
    have hej : ((j, (entities.map (entity_aabb cosf sinf)).get ⟨j, hja⟩) : ℕ × Aabb)
        ∈ (entities.map (entity_aabb cosf sinf)).enum := by
      rw [List.mk_mem_enum_iff_getElem?]
      simp [List.getElem?_eq_getElem hja]
    have hgi : (entities.map (entity_aabb cosf sinf)).get ⟨i, hia⟩
        = entity_aabb cosf sinf (entities.get ⟨i, hi⟩) := by
      simp
    have hgj : (entities.map (entity_aabb cosf sinf)).get ⟨j, hja⟩
        = entity_aabb cosf sinf (entities.get ⟨j, hj⟩) := by
      simp
    have hne : ((i, (entities.map (entity_aabb cosf sinf)).get ⟨i, hia⟩) : ℕ × Aabb)
        ≠ (j, (entities.map (entity_aabb cosf sinf)).get ⟨j, hja⟩) := by
      intro h
      exact absurd (congrArg Prod.fst h) (Nat.ne_of_lt hij)
    have hovij : ((entities.map (entity_aabb cosf sinf)).get ⟨i, hia⟩).overlaps
        ((entities.map (entity_aabb cosf sinf)).get ⟨j, hja⟩) = true := by
      rw [hgi, hgj]
      exact hov
    have hmem_i : ((i, (entities.map (entity_aabb cosf sinf)).get ⟨i, hia⟩) : ℕ × Aabb)
        ∈ (entities.map (entity_aabb cosf sinf)).enum.mergeSort
          (fun a b => decide (a.2.min.x ≤ b.2.min.x)) :=
      List.mem_mergeSort.mpr hei
    have hmem_j : ((j, (entities.map (entity_aabb cosf sinf)).get ⟨j, hja⟩) : ℕ × Aabb)
        ∈ (entities.map (entity_aabb cosf sinf)).enum.mergeSort
          (fun a b => decide (a.2.min.x ≤ b.2.min.x)) :=
      List.mem_mergeSort.mpr hej
    rcases pair_sublist_of_mem hne hmem_i hmem_j with hsub | hsub
    · have h := sap_complete_rest _ hs ([], []) _ _ hsub hovij
      simpa [if_pos hij] using h
    · have h := sap_complete_rest _ hs ([], []) _ _ hsub (overlaps_comm hovij)
      have hnlt : ¬ j < i := Nat.not_lt.mpr (Nat.le_of_lt hij)
      simpa [if_neg hnlt] using h
  · intro k hk
    exact absurd (hordered (k, k) hk) (lt_irrefl k)
  · intro p hp hp'
    have h1 := hordered p hp
    have h2 := hordered (p.2, p.1) hp'
    simp only at h2
    omega

/-- C3. Circle/circle narrow phase ignores the speculative distance: with unit
radii, centres `(0,0)` and `(2.04, 0)` the circles are separated by `0.04 m`,
inside the default speculative distance `0.05 m`, so the claim requires a
speculative contact with penetration `-0.04`; the code returns no contact
(for every sqrt oracle, since the distance gate fires before `sqrt` is used). -/
theorem circle_circle_no_speculative_contact :
    ∀ sqrtf : ℚ → ℚ,
      circle_circle_detect sqrtf ⟨0, 0⟩ 1 ⟨51 / 25, 0⟩ 1 = none ∧
      (2 : ℚ) < 51 / 25 ∧ (51 / 25 : ℚ) ≤ 2 + 1 / 20 := by
  intro sqrtf
  refine ⟨?_, by norm_num, by norm_num⟩
  simp only [circle_circle_detect, Vec2.length_squared]
  norm_num [HSub.hSub, Sub.sub, Vec2.sub]

/-- Contact constraint state (`ContactConstraint`, src/core/solver/constraint.rs:8-23). -/
structure ContactConstraint where
  index_a : ℕ
  index_b : ℕ
  normal : Vec2
  tangent : Vec2
  local_anchor_a : Vec2
  local_anchor_b : Vec2
  base_separation : ℚ
  normal_mass : ℚ
  tangent_mass : ℚ
  jn : ℚ
  jt : ℚ
  relative_velocity : ℚ
deriving DecidableEq, Repr

/-- Velocity of a body at offset `r`, `velocity_at` (src/core/solver/constraint.rs:215-218). -/
def velocity_at (r : Vec2) (e : Body) : Vec2 :=
  e.vel + (⟨-e.omega * r.y, e.omega * r.x⟩ : Vec2)

/-- Impulse application to a body pair, `apply_impulse_pair`
(src/core/solver/constraint.rs:220-234). -/
def apply_impulse_pair (a b : Body) (r_a r_b dir : Vec2) (magnitude : ℚ) : Body × Body :=
  let impulse := dir * magnitude
  ({ a with vel := a.vel - a.inv_mass * impulse,
            omega := a.omega - a.inv_inertia * r_a.cross impulse },
   { b with vel := b.vel + b.inv_mass * impulse,
            omega := b.omega + b.inv_inertia * r_b.cross impulse })

/-- Pair lookup `get_pair_mut` (src/core/solver/constraint.rs:255-268): `none`
when the indices coincide or are out of range, otherwise the two bodies. -/
def get_pair (entities : List Body) (i j : ℕ) : Option (Body × Body) :=
  if i = j then none
  else
    match entities.get? i, entities.get? j with
    | some a, some b => some (a, b)
    | _, _ => none

/-- Write both bodies of a pair back into the entity list (the in-place
mutation through `get_pair_mut`; `i ≠ j` whenever it is used). -/
def set_pair (entities : List Body) (i j : ℕ) (a b : Body) : List Body :=
  (entities.set i a).set j b

/-- Predicted-delta refresh `sync_pair_deltas` (src/core/solver/constraint.rs:236-253). -/
def sync_pair_deltas (a b : Body) (i j : ℕ) (delta_pos : List Vec2) (delta_angle : List ℚ)
    (dt : ℚ) : List Vec2 × List ℚ :=
  if dt ≤ 0 then (delta_pos, delta_angle)
  else
    ((delta_pos.set i (a.vel * dt)).set j (b.vel * dt),
     (delta_angle.set i (a.omega * dt)).set j (b.omega * dt))

/-- Solver parameters (`SolverParams`, src/core/solver/constraint.rs:296-311). -/
structure SolverParams where
  bias_rate : ℚ
  slop : ℚ
  max_bias_velocity : ℚ
  restitution_threshold : ℚ
  restitution : ℚ
  friction : ℚ
deriving DecidableEq, Repr

/-- Default parameters, `SolverParams::default` (src/core/solver/constraint.rs:313-327):
`bias_rate = 0.05`, `slop = 0.01`, `max_bias_velocity = 4.0`,
`restitution_threshold = 1.0`, `restitution = 0.3`, `friction = 0.5`. -/
def SolverParams.default : SolverParams :=
  ⟨1 / 20, 1 / 100, 4, 1, 3 / 10, 1 / 2⟩

/-- Velocity bias of the normal solve (src/core/solver/constraint.rs:109-118):
zero for `dt ≤ 0`; `separation / dt` for positive (speculative) separation;
for overlap, the Baumgarte term `bias_rate · min(separation + slop, 0) / dt`
clamped below by `-max_bias_velocity` when bias is enabled, else zero. -/
def velocity_bias (separation dt : ℚ) (params : SolverParams) (use_bias : Bool) : ℚ :=
  if dt ≤ 0 then 0
  else if 0 < separation then separation / dt
  else if use_bias then
    max (params.bias_rate * min (separation + params.slop) 0 / dt) (-params.max_bias_velocity)
  else 0

/-- Solver working state: the entity list plus the solver-internal predicted
per-body deltas (`delta_pos`, `delta_angle` of `ConstraintSolver`). -/
structure SolverCtx where
  entities : List Body
  delta_pos : List Vec2
  delta_angle : List ℚ
deriving DecidableEq, Repr

/-- Normal-direction solve, `ContactConstraint::solve_normal`
(src/core/solver/constraint.rs:83-134). Rust indexes the delta arrays
directly (the solver keeps them sized to the entity list); out-of-range reads
are modelled by `getD _ default`. -/
def ContactConstraint.solve_normal (cosf sinf : ℚ → ℚ) (c : ContactConstraint)
    (ctx : SolverCtx) (dt : ℚ) (params : SolverParams) (use_bias : Bool) :
    ContactConstraint × SolverCtx :=
  match get_pair ctx.entities c.index_a c.index_b with
  | none => (c, ctx)
  | some (a, b) =>
    let r_a0 := (Mat2.rotation cosf sinf a.angle).mul_vec2 c.local_anchor_a
    let r_b0 := (Mat2.rotation cosf sinf b.angle).mul_vec2 c.local_anchor_b
    let dr_a := r_a0.perp * (ctx.delta_angle.getD c.index_a 0)
    let dr_b := r_b0.perp * (ctx.delta_angle.getD c.index_b 0)
    let dp := ctx.delta_pos.getD c.index_b Vec2.zero - ctx.delta_pos.getD c.index_a Vec2.zero
    let separation := c.base_separation + (dp + dr_b - dr_a).dot c.normal
    let vb := velocity_bias separation dt params use_bias
    let vn := (velocity_at r_b0 b - velocity_at r_a0 a).dot c.normal
    let impulse := -c.normal_mass * (vn + vb)
    let jn_old := c.jn
    let jn_new := max (jn_old + impulse) 0
    let delta := jn_new - jn_old
    let ab := apply_impulse_pair a b r_a0 r_b0 c.normal delta
    let entities' := set_pair ctx.entities c.index_a c.index_b ab.1 ab.2
    let da := sync_pair_deltas ab.1 ab.2 c.index_a c.index_b ctx.delta_pos ctx.delta_angle dt
    ({ c with jn := jn_new }, ⟨entities', da.1, da.2⟩)

/-- Clamp `x.clamp(lo, hi)` of Rust, assuming `lo ≤ hi` (Rust panics
otherwise; the solver only calls it with `lo = -μ·jn ≤ μ·jn = hi`). -/
def clampq (x lo hi : ℚ) : ℚ := min (max x lo) hi

/-- Tangent-direction solve, `ContactConstraint::solve_tangent`
(src/core/solver/constraint.rs:136-161). -/
def ContactConstraint.solve_tangent (cosf sinf : ℚ → ℚ) (c : ContactConstraint)
    (ctx : SolverCtx) (dt : ℚ) (friction : ℚ) : ContactConstraint × SolverCtx :=
  match get_pair ctx.entities c.index_a c.index_b with
  | none => (c, ctx)
  | some (a, b) =>
    let r_a0 := (Mat2.rotation cosf sinf a.angle).mul_vec2 c.local_anchor_a
    let r_b0 := (Mat2.rotation cosf sinf b.angle).mul_vec2 c.local_anchor_b
    let vt := (velocity_at r_b0 b - velocity_at r_a0 a).dot c.tangent
    let lambda := -c.tangent_mass * vt
    let max_jt := friction * c.jn
    let jt_old := c.jt
    let jt_new := clampq (jt_old + lambda) (-max_jt) max_jt
    let delta := jt_new - jt_old
    let ab := apply_impulse_pair a b r_a0 r_b0 c.tangent delta
    let entities' := set_pair ctx.entities c.index_a c.index_b ab.1 ab.2
    let da := sync_pair_deltas ab.1 ab.2 c.index_a c.index_b ctx.delta_pos ctx.delta_angle dt
    ({ c with jt := jt_new }, ⟨entities', da.1, da.2⟩)

/-- Restitution pass for one constraint, `ContactConstraint::apply_restitution`
(src/core/solver/constraint.rs:163-199): early return when the coefficient is
zero, the contact was not overlapping at build time, the captured approach
velocity is above `-threshold`, or no normal impulse has accumulated. -/
def ContactConstraint.apply_restitution (cosf sinf : ℚ → ℚ) (c : ContactConstraint)
    (ctx : SolverCtx) (dt : ℚ) (restitution threshold : ℚ) :
    ContactConstraint × SolverCtx :=
  if restitution = 0 then (c, ctx)
  else if 0 ≤ c.base_separation then (c, ctx)
  else if -threshold < c.relative_velocity ∨ c.jn = 0 then (c, ctx)
  else
    match get_pair ctx.entities c.index_a c.index_b with
    | none => (c, ctx)
    | some (a, b) =>
      let r_a0 := (Mat2.rotation cosf sinf a.angle).mul_vec2 c.local_anchor_a
      let r_b0 := (Mat2.rotation cosf sinf b.angle).mul_vec2 c.local_anchor_b
      let vn := (velocity_at r_b0 b - velocity_at r_a0 a).dot c.normal
      let impulse := -c.normal_mass * (vn + restitution * c.relative_velocity)
      let jn_old := c.jn
      let jn_new := max (jn_old + impulse) 0
      let delta := jn_new - jn_old
      let ab := apply_impulse_pair a b r_a0 r_b0 c.normal delta
      let entities' := set_pair ctx.entities c.index_a c.index_b ab.1 ab.2
      let da := sync_pair_deltas ab.1 ab.2 c.index_a c.index_b ctx.delta_pos ctx.delta_angle dt
      ({ c with jn := jn_new }, ⟨entities', da.1, da.2⟩)

/-- Warm-start application, `ContactConstraint::apply_warm_start`
(src/core/solver/constraint.rs:201-212): applies the cached impulses to body
velocities; the constraint itself is read-only here. -/
def ContactConstraint.apply_warm_start (cosf sinf : ℚ → ℚ) (c : ContactConstraint)
    (entities : List Body) : List Body :=
  if c.jn = 0 ∧ c.jt = 0 then entities
  else
    match get_pair entities c.index_a c.index_b with
    | none => entities
    | some (a, b) =>
      let r_a0 := (Mat2.rotation cosf sinf a.angle).mul_vec2 c.local_anchor_a
      let r_b0 := (Mat2.rotation cosf sinf b.angle).mul_vec2 c.local_anchor_b
      let ab1 := apply_impulse_pair a b r_a0 r_b0 c.normal c.jn
      let ab2 := apply_impulse_pair ab1.1 ab1.2 r_a0 r_b0 c.tangent c.jt
      set_pair entities c.index_a c.index_b ab2.1 ab2.2

/-- Grid cell size of the warm-start cache, `CELL_SIZE = 0.05`
(src/core/solver/constraint.rs:270). -/
def CELL_SIZE : ℚ := 1 / 20

/-- Rounding of Rust's `f32::round`: half-way cases away from zero. -/
def roundHalfAway (q : ℚ) : ℤ :=
  if 0 ≤ q then ⌊q + 1 / 2⌋ else ⌈q - 1 / 2⌉

/-- Warm-start cache key (`CacheKey`, src/core/solver/constraint.rs:272-294):
the body-index pair plus both local anchors snapped to the `CELL_SIZE` grid. -/
structure CacheKey where
  pair : ℕ × ℕ
  cell_a : ℤ × ℤ
  cell_b : ℤ × ℤ
deriving DecidableEq, Repr

/-- Grid snap `CacheKey::cell` (src/core/solver/constraint.rs:280-285). -/
def CacheKey.cell (v : Vec2) : ℤ × ℤ :=
  (roundHalfAway (v.x / CELL_SIZE), roundHalfAway (v.y / CELL_SIZE))

/-- Constructor `CacheKey::new` (src/core/solver/constraint.rs:287-293). -/
def CacheKey.new (index_a index_b : ℕ) (local_anchor_a local_anchor_b : Vec2) : CacheKey :=
  ⟨(index_a, index_b), CacheKey.cell local_anchor_a, CacheKey.cell local_anchor_b⟩

/-- Cache key of a constraint (the lookup key built in `build_constraints`,
src/core/solver/constraint.rs:373 and :388). -/
def cacheKeyOf (c : ContactConstraint) : CacheKey :=
  CacheKey.new c.index_a c.index_b c.local_anchor_a c.local_anchor_b

/-- Insertion with replacement, modelling `HashMap::insert`. -/
def cacheInsert (m : List (CacheKey × ℚ × ℚ)) (k : CacheKey) (v : ℚ × ℚ) :
    List (CacheKey × ℚ × ℚ) :=
  (k, v) :: m.filter (fun e => !decide (e.1 = k))

/-- Lookup, modelling `HashMap::get`. -/
def cacheLookup (m : List (CacheKey × ℚ × ℚ)) (k : CacheKey) : Option (ℚ × ℚ) :=
  (m.find? (fun e => decide (e.1 = k))).map Prod.snd

/-- Cache fill of `build_constraints` (src/core/solver/constraint.rs:369-376):
every previous constraint that carries a non-zero impulse stores `(jn, jt)`
under its key. -/
def warmCache (prev : List ContactConstraint) : List (CacheKey × ℚ × ℚ) :=
  prev.foldl
    (fun m c => if c.jn ≠ 0 ∨ c.jt ≠ 0 then cacheInsert m (cacheKeyOf c) (c.jn, c.jt) else m) []

/-- Effective-mass helper of `ContactConstraint::new`
(src/core/solver/constraint.rs:47-55). -/
def eff_mass (a b : Body) (r_a r_b axis : Vec2) : ℚ :=
  let rn_a := r_a.cross axis
  let rn_b := r_b.cross axis
  let inv := a.inv_mass + b.inv_mass + rn_a * rn_a * a.inv_inertia + rn_b * rn_b * b.inv_inertia
  if 1 / 100000000 < inv then 1 / inv else 0

/-- Constraint construction, `ContactConstraint::new`
(src/core/solver/constraint.rs:25-79). -/
def ContactConstraint.new (cosf sinf : ℚ → ℚ) (index_a index_b : ℕ) (normal : Vec2)
    (cp : ContactPoint) (a b : Body) : ContactConstraint :=
  let r_a_world0 := cp.point - a.pos
  let r_b_world0 := cp.point - b.pos
  let rot_a_t := (Mat2.rotation cosf sinf a.angle).transpose
  let rot_b_t := (Mat2.rotation cosf sinf b.angle).transpose
  let local_anchor_a := rot_a_t.mul_vec2 r_a_world0
  let local_anchor_b := rot_b_t.mul_vec2 r_b_world0
  let r_a := (Mat2.rotation cosf sinf a.angle).mul_vec2 local_anchor_a
  let r_b := (Mat2.rotation cosf sinf b.angle).mul_vec2 local_anchor_b
  let tangent := normal.perp
  let base_separation := -cp.penetration
  let rel_vel := velocity_at r_b b - velocity_at r_a a
  { index_a := index_a, index_b := index_b, normal := normal, tangent := tangent,
    local_anchor_a := local_anchor_a, local_anchor_b := local_anchor_b,
    base_separation := base_separation,
    normal_mass := eff_mass a b r_a r_b normal,
    tangent_mass := eff_mass a b r_a r_b tangent,
    jn := 0, jt := 0, relative_velocity := rel_vel.dot normal }

/-- Solver state (`ConstraintSolver`, src/core/solver/constraint.rs:329-339). -/
structure ConstraintSolver where
  constraints : List ContactConstraint
  iterations : ℕ
  params : SolverParams
  cache : List (CacheKey × ℚ × ℚ)
  dt : ℚ
  last_dt : ℚ
  delta_pos : List Vec2
  delta_angle : List ℚ
deriving DecidableEq, Repr

/-- Constructor `ConstraintSolver::new` (src/core/solver/constraint.rs:342-353). -/
def ConstraintSolver.new (iterations : ℕ) : ConstraintSolver :=
  ⟨[], iterations, SolverParams.default, [], 0, 0, [], []⟩

/-- Resize-to-length of `ensure_delta_capacity`
(src/core/solver/constraint.rs:449-455): `Vec::resize` keeps the prefix and
pads with the given element. -/
def resizeTo {α : Type} (l : List α) (n : ℕ) (z : α) : List α :=
  if l.length = n then l else l.take n ++ List.replicate (n - l.length) z

/-- Constraint building, `ConstraintSolver::build_constraints`
(src/core/solver/constraint.rs:355-399): cache the previous impulses, then
build one constraint per manifold point (skipping manifolds with out-of-range
indices), warm-starting from the cache scaled by `dt / last_dt`. -/
def ConstraintSolver.build_constraints (cosf sinf : ℚ → ℚ) (s : ConstraintSolver)
    (manifolds : List Manifold) (entities : List Body) (dt : ℚ) : ConstraintSolver :=
  let dtScale := if 0 < s.last_dt then dt / s.last_dt else 1
  let cache := warmCache s.constraints
  let constraints := manifolds.flatMap (fun m =>
    match entities.get? m.a, entities.get? m.b with
    | some a, some b =>
      m.points.map (fun cp =>
        let c := ContactConstraint.new cosf sinf m.a m.b m.normal cp a b
        match cacheLookup cache (cacheKeyOf c) with
        | some v => { c with jn := v.1 * dtScale, jt := v.2 * dtScale }
        | none => c)
    | _, _ => [])
  { s with dt := dt, cache := cache, constraints := constraints, last_dt := dt,
           delta_pos := resizeTo s.delta_pos entities.length Vec2.zero,
           delta_angle := resizeTo s.delta_angle entities.length 0 }

/-- One normal sweep over the constraint list (src/core/solver/constraint.rs:416-425). -/
def normal_pass (cosf sinf : ℚ → ℚ) (cs : List ContactConstraint) (ctx : SolverCtx)
    (dt : ℚ) (params : SolverParams) (use_bias : Bool) :
    List ContactConstraint × SolverCtx :=
  cs.foldl
    (fun acc c =>
      let r := c.solve_normal cosf sinf acc.2 dt params use_bias
      (acc.1 ++ [r.1], r.2))
    ([], ctx)

/-- One tangent sweep over the constraint list (src/core/solver/constraint.rs:426-434). -/
def tangent_pass (cosf sinf : ℚ → ℚ) (cs : List ContactConstraint) (ctx : SolverCtx)
    (dt : ℚ) (friction : ℚ) : List ContactConstraint × SolverCtx :=
  cs.foldl
    (fun acc c =>
      let r := c.solve_tangent cosf sinf acc.2 dt friction
      (acc.1 ++ [r.1], r.2))
    ([], ctx)

/-- The restitution sweep (src/core/solver/constraint.rs:437-446). -/
def restitution_pass (cosf sinf : ℚ → ℚ) (cs : List ContactConstraint) (ctx : SolverCtx)
    (dt : ℚ) (restitution threshold : ℚ) : List ContactConstraint × SolverCtx :=
  cs.foldl
    (fun acc c =>
      let r := c.apply_restitution cosf sinf acc.2 dt restitution threshold
      (acc.1 ++ [r.1], r.2))
    ([], ctx)

/-- The main iteration loop of `ConstraintSolver::solve`
(src/core/solver/constraint.rs:415-435): each round runs a normal sweep with
bias followed by a tangent sweep. -/
def solve_rounds (cosf sinf : ℚ → ℚ) (dt : ℚ) (params : SolverParams) :
    ℕ → List ContactConstraint × SolverCtx → List ContactConstraint × SolverCtx
  | 0, s => s
  | n + 1, s =>
    let s1 := normal_pass cosf sinf s.1 s.2 dt params true
    let s2 := tangent_pass cosf sinf s1.1 s1.2 dt params.friction
    solve_rounds cosf sinf dt params n s2

/-- Initial predicted deltas, `init_predicted_deltas`
(src/core/solver/constraint.rs:457-473). -/
def init_predicted_deltas (entities : List Body) (dt : ℚ) : List Vec2 × List ℚ :=
  if dt ≤ 0 then (entities.map (fun _ => Vec2.zero), entities.map (fun _ => 0))
  else (entities.map (fun e => e.vel * dt), entities.map (fun e => e.omega * dt))

/-- Full solve, `ConstraintSolver::solve` (src/core/solver/constraint.rs:401-447):
warm start, initialise deltas, run the biased rounds, then the restitution
sweep. Returns the updated solver state and entity list. -/
def ConstraintSolver.solve (cosf sinf : ℚ → ℚ) (s : ConstraintSolver)
    (entities : List Body) : ConstraintSolver × List Body :=
  let entities1 := s.constraints.foldl
    (fun es c => c.apply_warm_start cosf sinf es) entities
  let d := init_predicted_deltas entities1 s.dt
  let r := solve_rounds cosf sinf s.dt s.params s.iterations
    (s.constraints, ⟨entities1, d.1, d.2⟩)
  let r2 := restitution_pass cosf sinf r.1 r.2 s.dt s.params.restitution
    s.params.restitution_threshold
  ({ s with constraints := r2.1, delta_pos := r2.2.delta_pos,
            delta_angle := r2.2.delta_angle },
   r2.2.entities)

/-- A filter that only discards non-matches commutes out of `find?`. -/
theorem find?_filter_imp {α : Type} (p q : α → Bool) (h : ∀ a, p a = true → q a = true) :
    ∀ l : List α, (l.filter q).find? p = l.find? p := by
  intro l
  induction l with
  | nil => rfl
  | cons a l ih =>
    by_cases hq : q a = true
    · rw [List.filter_cons_of_pos hq]
      by_cases hp : p a = true
      · rw [List.find?_cons_of_pos _ hp, List.find?_cons_of_pos _ hp]
      · rw [List.find?_cons_of_neg _ (by simpa using hp), List.find?_cons_of_neg _ (by simpa using hp)]
        exact ih
    · have hp : ¬ p a = true := fun hpa => hq (h a hpa)
      rw [List.filter_cons_of_neg (by simpa using hq), List.find?_cons_of_neg _ (by simpa using hp)]
      exact ih

/-- Lookup after an insert-with-replacement. -/
theorem cacheLookup_insert (m : List (CacheKey × ℚ × ℚ)) (k' : CacheKey) (v' : ℚ × ℚ)
    (k : CacheKey) :
    cacheLookup (cacheInsert m k' v') k = if k = k' then some v' else cacheLookup m k := by
  by_cases h : k = k'
  · subst h
    simp [cacheLookup, cacheInsert, List.find?_cons_of_pos]
  · rw [if_neg h]
    unfold cacheLookup cacheInsert
    rw [List.find?_cons_of_neg _ (by simpa using fun he : k' = k => h he.symm)]
    rw [find?_filter_imp _ _ ?_ m]
    intro a ha
    simp only [decide_eq_true_eq] at ha
    simp [ha, h]

/-- Provenance through the cache-filling fold of `build_constraints`: a hit
comes either from the initial map or from some constraint of the traversed
list that carried a non-zero impulse. -/
theorem warmCache_fold_lookup (prev : List ContactConstraint) :
    ∀ (m : List (CacheKey × ℚ × ℚ)) (k : CacheKey) (v : ℚ × ℚ),
      cacheLookup (prev.foldl
        (fun m c => if c.jn ≠ 0 ∨ c.jt ≠ 0 then cacheInsert m (cacheKeyOf c) (c.jn, c.jt) else m)
        m) k = some v →
      cacheLookup m k = some v ∨
        ∃ p ∈ prev, (p.jn ≠ 0 ∨ p.jt ≠ 0) ∧ cacheKeyOf p = k ∧ v = (p.jn, p.jt) := by
  induction prev with
  | nil => intro m k v h; exact Or.inl h
  | cons q prev ih =>
    intro m k v h
    rw [List.foldl_cons] at h
    rcases ih _ k v h with h' | ⟨p, hp, hnz, hk, hv⟩
    · by_cases hq : q.jn ≠ 0 ∨ q.jt ≠ 0
      · rw [if_pos hq, cacheLookup_insert] at h'
        by_cases hkk : k = cacheKeyOf q
        · rw [if_pos hkk] at h'
          exact Or.inr ⟨q, List.mem_cons_self q prev, hq, hkk.symm, (Option.some.inj h').symm⟩
        · rw [if_neg hkk] at h'
          exact Or.inl h'
      · rw [if_neg hq] at h'
        exact Or.inl h'
    · exact Or.inr ⟨p, List.mem_cons_of_mem q hp, hnz, hk, hv⟩

/-- Hits survive the rest of the cache-filling fold. -/
theorem warmCache_fold_isSome_mono (prev : List ContactConstraint) :
    ∀ (m : List (CacheKey × ℚ × ℚ)) (k : CacheKey), (cacheLookup m k).isSome = true →
      (cacheLookup (prev.foldl
        (fun m c => if c.jn ≠ 0 ∨ c.jt ≠ 0 then cacheInsert m (cacheKeyOf c) (c.jn, c.jt) else m)
        m) k).isSome = true := by
  induction prev with
  | nil => intro m k h; exact h
  | cons q prev ih =>
    intro m k h
    rw [List.foldl_cons]
    refine ih _ k ?_
    by_cases hq : q.jn ≠ 0 ∨ q.jt ≠ 0
    · rw [if_pos hq, cacheLookup_insert]
      by_cases hkk : k = cacheKeyOf q
      · rw [if_pos hkk]; rfl
      · rw [if_neg hkk]; exact h
    · rw [if_neg hq]; exact h

/-- Characterisation of hits of the cache-filling fold. -/
theorem warmCache_fold_isSome (prev : List ContactConstraint) :
    ∀ (m : List (CacheKey × ℚ × ℚ)) (k : CacheKey),
      (cacheLookup (prev.foldl
        (fun m c => if c.jn ≠ 0 ∨ c.jt ≠ 0 then cacheInsert m (cacheKeyOf c) (c.jn, c.jt) else m)
        m) k).isSome = true ↔
      (cacheLookup m k).isSome = true ∨
        ∃ p ∈ prev, (p.jn ≠ 0 ∨ p.jt ≠ 0) ∧ cacheKeyOf p = k := by
  induction prev with
  | nil =>
    intro m k
    simp
  | cons q prev ih =>
    intro m k
    rw [List.foldl_cons]
    rw [ih]
    constructor
    · rintro (h | ⟨p, hp, hnz, hk⟩)
      · by_cases hq : q.jn ≠ 0 ∨ q.jt ≠ 0
        · rw [if_pos hq, cacheLookup_insert] at h
          by_cases hkk : k = cacheKeyOf q
          · exact Or.inr ⟨q, List.mem_cons_self q prev, hq, hkk.symm⟩
          · rw [if_neg hkk] at h
            exact Or.inl h
        · rw [if_neg hq] at h
          exact Or.inl h
      · exact Or.inr ⟨p, List.mem_cons_of_mem q hp, hnz, hk⟩
    · rintro (h | ⟨p, hp, hnz, hk⟩)
      · refine Or.inl ?_
        by_cases hq : q.jn ≠ 0 ∨ q.jt ≠ 0
        · rw [if_pos hq, cacheLookup_insert]
          by_cases hkk : k = cacheKeyOf q
          · rw [if_pos hkk]; rfl
          · rw [if_neg hkk]; exact h
        · rw [if_neg hq]; exact h
      · rcases List.mem_cons.mp hp with rfl | hp'
        · refine Or.inl ?_
          rw [if_pos hnz, cacheLookup_insert, if_pos hk.symm]
          rfl
        · exact Or.inr ⟨p, hp', hnz, hk⟩

/-- Provenance of a warm-cache hit: it is the impulse pair of some previous
constraint with a matching key that carried a non-zero impulse. -/
theorem warmCache_lookup_some (prev : List ContactConstraint) (k : CacheKey) (v : ℚ × ℚ)
    (h : cacheLookup (warmCache prev) k = some v) :
    ∃ p ∈ prev, (p.jn ≠ 0 ∨ p.jt ≠ 0) ∧ cacheKeyOf p = k ∧ v = (p.jn, p.jt) := by
  rcases warmCache_fold_lookup prev [] k v h with h' | h'
  · simp [cacheLookup] at h'
  · exact h'

/-- A warm-cache key is present exactly when some previous constraint with a
non-zero impulse carries that key. -/
theorem warmCache_isSome_iff (prev : List ContactConstraint) (k : CacheKey) :
    (cacheLookup (warmCache prev) k).isSome = true ↔
      ∃ p ∈ prev, (p.jn ≠ 0 ∨ p.jt ≠ 0) ∧ cacheKeyOf p = k := by
  rw [warmCache, warmCache_fold_isSome prev [] k]
  simp [cacheLookup]

/-- The pair lookup succeeds on distinct in-range indices. -/
theorem get_pair_some (entities : List Body) (i j : ℕ) (hne : i ≠ j)
    (hi : i < entities.length) (hj : j < entities.length) :
    get_pair entities i j = some (entities.get ⟨i, hi⟩, entities.get ⟨j, hj⟩) := by
  unfold get_pair
  rw [if_neg hne]
  rw [List.get?_eq_get hi, List.get?_eq_get hj]

/-- The normal solve clamps the accumulated normal impulse at zero. -/
theorem solve_normal_jn (cosf sinf : ℚ → ℚ) (c : ContactConstraint) (ctx : SolverCtx)
    (dt : ℚ) (params : SolverParams) (use_bias : Bool) (h : 0 ≤ c.jn) :
    0 ≤ (c.solve_normal cosf sinf ctx dt params use_bias).1.jn := by
  unfold ContactConstraint.solve_normal
  cases get_pair ctx.entities c.index_a c.index_b with
  | none => exact h
  | some ab => exact le_max_right _ _

/-- The normal solve preserves the entity-list length. -/
theorem solve_normal_length (cosf sinf : ℚ → ℚ) (c : ContactConstraint) (ctx : SolverCtx)
    (dt : ℚ) (params : SolverParams) (use_bias : Bool) :
    ((c.solve_normal cosf sinf ctx dt params use_bias).2).entities.length
      = ctx.entities.length := by
  unfold ContactConstraint.solve_normal
  cases get_pair ctx.entities c.index_a c.index_b with
  | none => rfl
  | some ab => simp [set_pair]

/-- The tangent solve preserves the entity-list length. -/
theorem solve_tangent_length (cosf sinf : ℚ → ℚ) (c : ContactConstraint) (ctx : SolverCtx)
    (dt : ℚ) (friction : ℚ) :
    ((c.solve_tangent cosf sinf ctx dt friction).2).entities.length = ctx.entities.length := by
  unfold ContactConstraint.solve_tangent
  cases get_pair ctx.entities c.index_a c.index_b with
  | none => rfl
  | some ab => simp [set_pair]

/-- The tangent solve leaves `jn` unchanged and clamps `jt` into the Coulomb
cone measured against the current `jn`, provided the indices are valid. -/
theorem solve_tangent_cone (cosf sinf : ℚ → ℚ) (c : ContactConstraint) (ctx : SolverCtx)
    (dt : ℚ) (friction : ℚ) (hjn : 0 ≤ c.jn) (hμ : 0 ≤ friction)
    (hne : c.index_a ≠ c.index_b) (ha : c.index_a < ctx.entities.length)
    (hb : c.index_b < ctx.entities.length) :
    (c.solve_tangent cosf sinf ctx dt friction).1.jn = c.jn ∧
    |(c.solve_tangent cosf sinf ctx dt friction).1.jt|
      ≤ friction * (c.solve_tangent cosf sinf ctx dt friction).1.jn := by
  unfold ContactConstraint.solve_tangent
  rw [get_pair_some ctx.entities c.index_a c.index_b hne ha hb]
  refine ⟨rfl, ?_⟩
  have hfr : 0 ≤ friction * c.jn := mul_nonneg hμ hjn
  simp only [clampq]
  rw [abs_le]
  constructor
  · exact le_min (le_max_right _ _) (by linarith)
  · exact min_le_right _ _

/-- The restitution solve keeps the accumulated normal impulse non-negative. -/
theorem apply_restitution_jn (cosf sinf : ℚ → ℚ) (c : ContactConstraint) (ctx : SolverCtx)
    (dt restitution threshold : ℚ) (h : 0 ≤ c.jn) :
    0 ≤ (c.apply_restitution cosf sinf ctx dt restitution threshold).1.jn := by
  unfold ContactConstraint.apply_restitution
  split
  · exact h
  · split
    · exact h
    · split
      · exact h
      · cases get_pair ctx.entities c.index_a c.index_b with
        | none => exact h
        | some ab => exact le_max_right _ _

/-- Structure of the solver sweeps: every output constraint of a sweep is the
image of an input constraint under the per-constraint solve at some context of
the same entity-list length. -/
theorem pass_fold_mem (f : ContactConstraint → SolverCtx → ContactConstraint × SolverCtx)
    (hlen : ∀ c ctx, ((f c ctx).2).entities.length = ctx.entities.length) :
    ∀ (cs : List ContactConstraint) (acc : List ContactConstraint × SolverCtx),
      ((cs.foldl (fun a c => ((a.1 ++ [(f c a.2).1]), (f c a.2).2)) acc).2).entities.length
          = acc.2.entities.length ∧
      ∀ c' ∈ (cs.foldl (fun a c => ((a.1 ++ [(f c a.2).1]), (f c a.2).2)) acc).1,
        c' ∈ acc.1 ∨ ∃ c ∈ cs, ∃ ctx' : SolverCtx,
          ctx'.entities.length = acc.2.entities.length ∧ c' = (f c ctx').1 := by
  intro cs
  induction cs with
  | nil => intro acc; exact ⟨rfl, fun c' h => Or.inl h⟩
  | cons c0 cs ih =>
    intro acc
    rw [List.foldl_cons]
    rcases ih ((acc.1 ++ [(f c0 acc.2).1]), (f c0 acc.2).2) with ⟨ihl, ihm⟩
    constructor
    · rw [ihl]
      exact hlen c0 acc.2
    · intro c' hc'
      rcases ihm c' hc' with hin | ⟨c, hc, ctx', hctx, rfl⟩
      · rcases List.mem_append.mp hin with h | h
        · exact Or.inl h
        · refine Or.inr ⟨c0, List.mem_cons_self c0 cs, acc.2, rfl, ?_⟩
          rw [List.mem_singleton.mp h]
      · refine Or.inr ⟨c, List.mem_cons_of_mem c0 hc, ctx', ?_, rfl⟩
        rw [hctx, hlen c0 acc.2]

/-- The restitution solve preserves the entity-list length. -/
theorem apply_restitution_length (cosf sinf : ℚ → ℚ) (c : ContactConstraint) (ctx : SolverCtx)
    (dt restitution threshold : ℚ) :
    ((c.apply_restitution cosf sinf ctx dt restitution threshold).2).entities.length
      = ctx.entities.length := by
  unfold ContactConstraint.apply_restitution
  split
  · rfl
  · split
    · rfl
    · split
      · rfl
      · cases get_pair ctx.entities c.index_a c.index_b with
        | none => rfl
        | some ab => simp [set_pair]

/-- C1. Impulse invariants of the solver: constraints produced by
`build_constraints` start with `jn ≥ 0` whenever the previous constraints had
`jn ≥ 0` and the step is non-negative (warm-start application itself reads the
constraint without modifying it, so this is also the state after warm start);
a normal sweep keeps every `jn ≥ 0`; a tangent sweep keeps every `jn ≥ 0` and
leaves every `jt` inside the Coulomb cone `|jt| ≤ friction · jn` measured
against the current `jn`; the restitution sweep keeps every `jn ≥ 0`. -/
theorem solver_impulse_invariants :
    (∀ (cosf sinf : ℚ → ℚ) (s : ConstraintSolver) (manifolds : List Manifold)
      (entities : List Body) (dt : ℚ), 0 ≤ dt →
      (∀ p ∈ s.constraints, 0 ≤ p.jn) →
      ∀ c ∈ (s.build_constraints cosf sinf manifolds entities dt).constraints, 0 ≤ c.jn) ∧
    (∀ (cosf sinf : ℚ → ℚ) (cs : List ContactConstraint) (ctx : SolverCtx) (dt : ℚ)
      (params : SolverParams) (use_bias : Bool),
      (∀ c ∈ cs, 0 ≤ c.jn) →
      ∀ c' ∈ (normal_pass cosf sinf cs ctx dt params use_bias).1, 0 ≤ c'.jn) ∧
    (∀ (cosf sinf : ℚ → ℚ) (cs : List ContactConstraint) (ctx : SolverCtx) (dt friction : ℚ),
      0 ≤ friction →
      (∀ c ∈ cs, 0 ≤ c.jn) →
      (∀ c ∈ cs, c.index_a ≠ c.index_b ∧ c.index_a < ctx.entities.length ∧
        c.index_b < ctx.entities.length) →
      ∀ c' ∈ (tangent_pass cosf sinf cs ctx dt friction).1,
        0 ≤ c'.jn ∧ |c'.jt| ≤ friction * c'.jn) ∧
    (∀ (cosf sinf : ℚ → ℚ) (cs : List ContactConstraint) (ctx : SolverCtx)
      (dt restitution threshold : ℚ),
      (∀ c ∈ cs, 0 ≤ c.jn) →
      ∀ c' ∈ (restitution_pass cosf sinf cs ctx dt restitution threshold).1, 0 ≤ c'.jn) := by
  refine ⟨?_, ?_, ?_, ?_⟩
  · intro cosf sinf s manifolds entities dt hdt hprev c hc
    simp only [ConstraintSolver.build_constraints] at hc
    rw [List.mem_flatMap] at hc
    obtain ⟨m, hm, hc⟩ := hc
    cases hga : entities.get? m.a with
    | none => rw [hga] at hc; simp at hc
    | some a =>
      cases hgb : entities.get? m.b with
      | none => rw [hga, hgb] at hc; simp at hc
      | some b =>
        rw [hga, hgb] at hc
        simp only [List.mem_map] at hc
        obtain ⟨cp, hcp, rfl⟩ := hc
        have hscale : 0 ≤ (if 0 < s.last_dt then dt / s.last_dt else 1) := by
          split
          · exact div_nonneg hdt (by linarith)
          · norm_num
        cases hlk : cacheLookup (warmCache s.constraints)
            (cacheKeyOf (ContactConstraint.new cosf sinf m.a m.b m.normal cp a b)) with
        | none => simp only [hlk]; rfl
        | some v =>
          simp only [hlk]
          obtain ⟨p, hp, hnz, hkp, hv⟩ := warmCache_lookup_some _ _ _ hlk
          have hpj : 0 ≤ v.1 := by rw [hv]; exact hprev p hp
          exact mul_nonneg hpj hscale
  · intro cosf sinf cs ctx dt params use_bias hjn c' hc'
    have h := (pass_fold_mem
      (fun c ctx => c.solve_normal cosf sinf ctx dt params use_bias)
      (fun c ctx => solve_normal_length cosf sinf c ctx dt params use_bias)
      cs ([], ctx)).2 c' hc'
    rcases h with h | ⟨c, hc, ctx', _, rfl⟩
    · exact absurd h (List.not_mem_nil c')
    · exact solve_normal_jn cosf sinf c ctx' dt params use_bias (hjn c hc)
  · intro cosf sinf cs ctx dt friction hμ hjn hvalid c' hc'
    have h := (pass_fold_mem
      (fun c ctx => c.solve_tangent cosf sinf ctx dt friction)
      (fun c ctx => solve_tangent_length cosf sinf c ctx dt friction)
      cs ([], ctx)).2 c' hc'
    rcases h with h | ⟨c, hc, ctx', hlen, rfl⟩
    · exact absurd h (List.not_mem_nil c')
    · obtain ⟨hne, ha, hb⟩ := hvalid c hc
      have ha' : c.index_a < ctx'.entities.length := by rw [hlen]; exact ha
      have hb' : c.index_b < ctx'.entities.length := by rw [hlen]; exact hb
      obtain ⟨hjeq, hcone⟩ :=
        solve_tangent_cone cosf sinf c ctx' dt friction (hjn c hc) hμ hne ha' hb'
      refine ⟨?_, hcone⟩
      rw [hjeq]
      exact hjn c hc
  · intro cosf sinf cs ctx dt restitution threshold hjn c' hc'
    have h := (pass_fold_mem
      (fun c ctx => c.apply_restitution cosf sinf ctx dt restitution threshold)
      (fun c ctx => apply_restitution_length cosf sinf c ctx dt restitution threshold)
      cs ([], ctx)).2 c' hc'
    rcases h with h | ⟨c, hc, ctx', _, rfl⟩
    · exact absurd h (List.not_mem_nil c')
    · exact apply_restitution_jn cosf sinf c ctx' dt restitution threshold (hjn c hc)

/-- Trig oracle for scenes whose bodies all sit at angle zero: `cos 0 = 1`. -/
def cosZ : ℚ → ℚ := fun _ => 1

/-- Trig oracle for scenes whose bodies all sit at angle zero: `sin 0 = 0`. -/
def sinZ : ℚ → ℚ := fun _ => 0

/-- Sample static body at the origin. -/
def bodyStatic : Body :=
  { pos := ⟨0, 0⟩, vel := ⟨0, 0⟩, force := ⟨0, 0⟩, inv_mass := 0, angle := 0, omega := 0,
    torque := 0, inv_inertia := 0, collider := none, kind := .rigid }

/-- Sample unit-mass dynamic body at the origin. -/
def bodyDyn : Body := { bodyStatic with inv_mass := 1 }

/-- Sample contact constraint between entity 0 (static) and entity 1 (dynamic)
whose captured approach velocity sits exactly at minus the restitution
threshold `1`. -/
def ccBoundary : ContactConstraint :=
  { index_a := 0, index_b := 1, normal := ⟨1, 0⟩, tangent := ⟨0, 1⟩,
    local_anchor_a := ⟨0, 0⟩, local_anchor_b := ⟨0, 0⟩, base_separation := -1,
    normal_mass := 1, tangent_mass := 1, jn := 1, jt := 0, relative_velocity := -1 }

/-- Sample solver context holding the two bodies of `ccBoundary`. -/
def ctxBoundary : SolverCtx :=
  ⟨[bodyStatic, bodyDyn], [⟨0, 0⟩, ⟨0, 0⟩], [0, 0]⟩

/-- Witness for the solver impulse invariants at a concrete tangent sweep. -/
theorem solver_impulse_invariants_witness :
    ((0 : ℚ) ≤ 1 / 2 ∧ (∀ c ∈ [ccBoundary], 0 ≤ c.jn) ∧
      (∀ c ∈ [ccBoundary], c.index_a ≠ c.index_b ∧
        c.index_a < ctxBoundary.entities.length ∧
        c.index_b < ctxBoundary.entities.length)) ∧
    ∀ c' ∈ (tangent_pass cosZ sinZ [ccBoundary] ctxBoundary 1 (1 / 2)).1,
      0 ≤ c'.jn ∧ |c'.jt| ≤ 1 / 2 * c'.jn :=
  ⟨⟨by norm_num, by norm_num [ccBoundary], by norm_num [ccBoundary, ctxBoundary]⟩,
    solver_impulse_invariants.2.2.1 cosZ sinZ [ccBoundary] ctxBoundary 1 (1 / 2)
      (by norm_num) (by norm_num [ccBoundary]) (by norm_num [ccBoundary, ctxBoundary])⟩

/-- C4 counterexample. A speculative contact with positive current separation
gets the non-zero bias `separation / dt` fed into the normal impulse (the
claim demands bias `0` for every non-negative separation): at separation `1`,
`dt = 1` and default parameters the bias is `1`. -/
theorem velocity_bias_positive_separation_not_zero :
    velocity_bias 1 1 SolverParams.default true = 1 ∧ (1 : ℚ) ≠ 0 := by
  constructor
  · norm_num [velocity_bias]
  · norm_num

/-- C4 (amended). Bias of the normal solve for `dt > 0` with bias enabled:
for overlap (separation ≤ 0) it equals minus the clamp of the Baumgarte term
`bias_rate · max(-separation - slop, 0) / dt` at `max_bias_velocity` — in
particular its magnitude never exceeds `max_bias_velocity` and it is
non-positive; for positive (speculative) separation it is the positive
limiter `separation / dt`, not zero. -/
theorem velocity_bias_amended (sep dt : ℚ) (p : SolverParams) (hdt : 0 < dt)
    (hbr : 0 ≤ p.bias_rate) (hmb : 0 ≤ p.max_bias_velocity) :
    (0 < sep → velocity_bias sep dt p true = sep / dt ∧ 0 < velocity_bias sep dt p true) ∧
    (sep ≤ 0 →
      velocity_bias sep dt p true
        = -(min (p.bias_rate * max (-sep - p.slop) 0 / dt) p.max_bias_velocity) ∧
      -p.max_bias_velocity ≤ velocity_bias sep dt p true ∧
      velocity_bias sep dt p true ≤ 0) := by
  constructor
  · intro hsep
    have h1 : velocity_bias sep dt p true = sep / dt := by
      unfold velocity_bias
      rw [if_neg (by linarith), if_pos hsep]
    exact ⟨h1, by rw [h1]; exact div_pos hsep hdt⟩
  · intro hsep
    have hns : ¬ 0 < sep := not_lt.mpr hsep
    have h1 : velocity_bias sep dt p true
        = max (p.bias_rate * min (sep + p.slop) 0 / dt) (-p.max_bias_velocity) := by
      unfold velocity_bias
      rw [if_neg (by linarith), if_neg hns, if_pos rfl]
    have hmin : min (sep + p.slop) 0 = -(max (-sep - p.slop) 0) := by
      rcases le_total (sep + p.slop) 0 with h | h
      · rw [min_eq_left h, max_eq_left (by linarith)]
        ring
      · rw [min_eq_right h, max_eq_right (by linarith)]
        ring
    have h2 : velocity_bias sep dt p true
        = -(min (p.bias_rate * max (-sep - p.slop) 0 / dt) p.max_bias_velocity) := by
      rw [h1, hmin, mul_neg, neg_div, neg_inf]
    refine ⟨h2, ?_, ?_⟩
    · rw [h1]
      exact le_max_right _ _
    · rw [h2]
      have hA : 0 ≤ p.bias_rate * max (-sep - p.slop) 0 / dt :=
        div_nonneg (mul_nonneg hbr (le_max_right _ _)) (le_of_lt hdt)
      have : 0 ≤ min (p.bias_rate * max (-sep - p.slop) 0 / dt) p.max_bias_velocity :=
        le_min hA hmb
      linarith

/-- Witness for the amended bias characterisation at separation `-1`. -/
theorem velocity_bias_amended_witness :
    (0 : ℚ) < 1 ∧
    velocity_bias (-1) 1 SolverParams.default true
      = -(min (SolverParams.default.bias_rate
            * max (-(-1) - SolverParams.default.slop) 0 / 1)
          SolverParams.default.max_bias_velocity) :=
  ⟨by norm_num,
    ((velocity_bias_amended (-1) 1 SolverParams.default (by norm_num)
      (by norm_num [SolverParams.default]) (by norm_num [SolverParams.default])).2
      (by norm_num)).1⟩

/-- C5. Warm starting in `build_constraints`: every freshly built constraint
whose cache key (body-index pair plus both grid-snapped local anchors) hits
the cache — equivalently, matches some constraint of the previous build that
carried a non-zero impulse — starts with the cached impulses scaled by
`dt / last_dt`, and every other one starts with `jn = jt = 0`. -/
theorem build_constraints_warm_start (cosf sinf : ℚ → ℚ) (s : ConstraintSolver)
    (manifolds : List Manifold) (entities : List Body) (dt : ℚ) (hprev : 0 < s.last_dt) :
    ∀ c ∈ (s.build_constraints cosf sinf manifolds entities dt).constraints,
      ((cacheLookup (warmCache s.constraints) (cacheKeyOf c)).isSome = true ↔
        ∃ p ∈ s.constraints, (p.jn ≠ 0 ∨ p.jt ≠ 0) ∧ cacheKeyOf p = cacheKeyOf c) ∧
      (∀ v, cacheLookup (warmCache s.constraints) (cacheKeyOf c) = some v →
        c.jn = v.1 * (dt / s.last_dt) ∧ c.jt = v.2 * (dt / s.last_dt)) ∧
      (cacheLookup (warmCache s.constraints) (cacheKeyOf c) = none →
        c.jn = 0 ∧ c.jt = 0) := by
  intro c hc
  simp only [ConstraintSolver.build_constraints] at hc
  rw [List.mem_flatMap] at hc
  obtain ⟨m, hm, hc⟩ := hc
  cases hga : entities.get? m.a with
  | none => rw [hga] at hc; simp at hc
  | some a =>
    cases hgb : entities.get? m.b with
    | none => rw [hga, hgb] at hc; simp at hc
    | some b =>
      rw [hga, hgb] at hc
      simp only [List.mem_map] at hc
      obtain ⟨cp, hcp, rfl⟩ := hc
      cases hlk : cacheLookup (warmCache s.constraints)
          (cacheKeyOf (ContactConstraint.new cosf sinf m.a m.b m.normal cp a b)) with
      | none =>
        simp only [hlk]
        refine ⟨?_, ?_, ?_⟩
        · constructor
          · intro hs'
            simp at hs'
          · intro hex
            have h' := (warmCache_isSome_iff s.constraints _).mpr hex
            rw [hlk] at h'
            simp at h'
        · intro v hv
          cases hv
        · intro _
          exact ⟨rfl, rfl⟩
      | some v =>
        simp only [hlk]
        have hkeq : cacheKeyOf { ContactConstraint.new cosf sinf m.a m.b m.normal cp a b with
            jn := v.1 * (if 0 < s.last_dt then dt / s.last_dt else 1),
            jt := v.2 * (if 0 < s.last_dt then dt / s.last_dt else 1) }
            = cacheKeyOf (ContactConstraint.new cosf sinf m.a m.b m.normal cp a b) := rfl
        obtain ⟨p, hp, hnz, hkp, hv⟩ := warmCache_lookup_some _ _ _ hlk
        refine ⟨?_, ?_, ?_⟩
        · rw [hkeq]
          constructor
          · intro _
            exact ⟨p, hp, hnz, hkp⟩
          · intro _
            rw [hlk]
            rfl
        · intro v' hv'
          rw [hkeq, hlk] at hv'
          obtain rfl : v = v' := Option.some.inj hv'
          constructor
          · show v.1 * (if 0 < s.last_dt then dt / s.last_dt else 1) = v.1 * (dt / s.last_dt)
            rw [if_pos hprev]
          · show v.2 * (if 0 < s.last_dt then dt / s.last_dt else 1) = v.2 * (dt / s.last_dt)
            rw [if_pos hprev]
        · intro h0
          rw [hkeq, hlk] at h0
          cases h0

/-- Sample previous constraint with a unit normal impulse, for the warm-start
witness: both anchors at the origin of bodies at the origin. -/
def ccCached : ContactConstraint :=
  { ContactConstraint.new cosZ sinZ 0 1 ⟨1, 0⟩ ⟨⟨0, 0⟩, 0⟩ bodyStatic bodyDyn with jn := 1 }

/-- Sample solver state holding `ccCached` with `last_dt = 1`. -/
def solverCached : ConstraintSolver :=
  { constraints := [ccCached], iterations := 10, params := SolverParams.default, cache := [],
    dt := 1, last_dt := 1, delta_pos := [], delta_angle := [] }

/-- Sample manifold reproducing the contact of `ccCached`. -/
def manifoldCached : Manifold := Manifold.new 0 1 ⟨1, 0⟩ [⟨⟨0, 0⟩, 0⟩]

/-- Witness for the warm-start characterisation: rebuilding the cached contact
with `dt = 2` against `last_dt = 1` doubles the cached impulse. -/
theorem build_constraints_warm_start_witness :
    ((0 : ℚ) < solverCached.last_dt ∧
      (solverCached.build_constraints cosZ sinZ [manifoldCached]
        [bodyStatic, bodyDyn] 2).constraints.map (fun c => c.jn) = [2]) ∧
    ∀ c ∈ (solverCached.build_constraints cosZ sinZ [manifoldCached]
        [bodyStatic, bodyDyn] 2).constraints,
      ((cacheLookup (warmCache solverCached.constraints) (cacheKeyOf c)).isSome = true ↔
        ∃ p ∈ solverCached.constraints, (p.jn ≠ 0 ∨ p.jt ≠ 0) ∧
          cacheKeyOf p = cacheKeyOf c) ∧
      (∀ v, cacheLookup (warmCache solverCached.constraints) (cacheKeyOf c) = some v →
        c.jn = v.1 * (2 / solverCached.last_dt) ∧ c.jt = v.2 * (2 / solverCached.last_dt)) ∧
      (cacheLookup (warmCache solverCached.constraints) (cacheKeyOf c) = none →
        c.jn = 0 ∧ c.jt = 0) :=
  ⟨⟨by norm_num [solverCached], by
    norm_num [ConstraintSolver.build_constraints, solverCached, manifoldCached, Manifold.new,
      warmCache, cacheInsert, cacheLookup, cacheKeyOf, CacheKey.new, ccCached, List.find?]⟩,
    build_constraints_warm_start cosZ sinZ solverCached [manifoldCached]
      [bodyStatic, bodyDyn] 2 (by norm_num [solverCached])⟩

/-- Witness for the broad-phase contract: two colliderless bodies at the
origin overlap and the pair `(0, 1)` is reported. -/
theorem detect_sap_contract_witness :
    ((0 : ℕ) < 1 ∧ 1 < ([bodyStatic, bodyDyn] : List Body).length ∧
      (entity_aabb cosZ sinZ (([bodyStatic, bodyDyn] : List Body).get ⟨0, by norm_num⟩)).overlaps
        (entity_aabb cosZ sinZ (([bodyStatic, bodyDyn] : List Body).get ⟨1, by norm_num⟩))
        = true) ∧
    (0, 1) ∈ detect_sap cosZ sinZ [bodyStatic, bodyDyn] :=
  ⟨⟨by norm_num, by norm_num,
      by norm_num [entity_aabb, bodyStatic, bodyDyn, Aabb.overlaps]⟩,
    (detect_sap_contract cosZ sinZ [bodyStatic, bodyDyn]).1 0 1 (by norm_num) (by norm_num)
      (by norm_num [entity_aabb, bodyStatic, bodyDyn, Aabb.overlaps])⟩

/-- C10 counterexample. With the captured approach velocity exactly at minus
the restitution threshold the claim demands a no-op (it requires the velocity
to be strictly below), but the code's guard `relative_velocity > -threshold`
does not fire: the accumulated impulse grows from `1` to `2` and the dynamic
body picks up velocity `(1, 0)`. -/
theorem apply_restitution_at_threshold_changes_state :
    ¬(ccBoundary.relative_velocity < -(1 : ℚ)) ∧
    ccBoundary.jn = 1 ∧
    (ccBoundary.apply_restitution cosZ sinZ ctxBoundary 1 1 1).1.jn = 2 ∧
    ((ccBoundary.apply_restitution cosZ sinZ ctxBoundary 1 1 1).2).entities.map
        (fun e => e.vel) = [⟨0, 0⟩, ⟨1, 0⟩] ∧
    ctxBoundary.entities.map (fun e => e.vel) = [⟨0, 0⟩, ⟨0, 0⟩] := by
  refine ⟨by norm_num [ccBoundary], by norm_num [ccBoundary], ?_, ?_, ?_⟩ <;>
    norm_num [ContactConstraint.apply_restitution, ccBoundary, ctxBoundary, get_pair,
      bodyStatic, bodyDyn, velocity_at, apply_impulse_pair, set_pair, sync_pair_deltas,
      Mat2.rotation, Mat2.mul_vec2, cosZ, sinZ, Vec2.dot, Vec2.cross, max_def, min_def]

/-- C10 (amended). The restitution pass leaves the constraint and the solver
context entirely unchanged unless all of: the restitution coefficient is
non-zero, the contact was overlapping at build time (`base_separation < 0`),
the accumulated normal impulse is non-zero, and the captured approach velocity
is at or below minus the threshold (`relative_velocity ≤ -threshold`); in
particular speculative, non-overlapping contacts never receive a restitution
impulse. -/
theorem apply_restitution_noop (cosf sinf : ℚ → ℚ) (c : ContactConstraint)
    (ctx : SolverCtx) (dt restitution threshold : ℚ)
    (h : ¬(restitution ≠ 0 ∧ c.base_separation < 0 ∧ c.jn ≠ 0 ∧
      c.relative_velocity ≤ -threshold)) :
    c.apply_restitution cosf sinf ctx dt restitution threshold = (c, ctx) := by
  by_cases h1 : restitution = 0
  · unfold ContactConstraint.apply_restitution
    rw [if_pos h1]
  by_cases h2 : 0 ≤ c.base_separation
  · unfold ContactConstraint.apply_restitution
    rw [if_neg h1, if_pos h2]
  by_cases h3 : -threshold < c.relative_velocity ∨ c.jn = 0
  · unfold ContactConstraint.apply_restitution
    rw [if_neg h1, if_neg h2, if_pos h3]
  · exfalso
    push_neg at h3
    exact h ⟨h1, not_le.mp h2, h3.2, h3.1⟩

/-- Witness for the restitution no-op: a zero restitution coefficient leaves
the boundary sample untouched. -/
theorem apply_restitution_noop_witness :
    (¬((0 : ℚ) ≠ 0 ∧ ccBoundary.base_separation < 0 ∧ ccBoundary.jn ≠ 0 ∧
      ccBoundary.relative_velocity ≤ -(1 : ℚ))) ∧
    ccBoundary.apply_restitution cosZ sinZ ctxBoundary 1 0 1 = (ccBoundary, ctxBoundary) :=
  ⟨by simp, apply_restitution_noop cosZ sinZ ccBoundary ctxBoundary 1 0 1 (by simp)⟩

/-- Segment clip against a half-plane `normal · x ≤ offset`,
`clip_segment_to_line` (src/core/collision/box_box.rs:17-49). -/
def clip_segment_to_line (v_in : List Vec2) (normal : Vec2) (offset : ℚ) : List Vec2 :=
  match v_in with
  | v0 :: v1 :: _ =>
    let d0 := normal.dot v0 - offset
    let d1 := normal.dot v1 - offset
    if d0 ≤ 0 ∧ d1 ≤ 0 then [v0, v1]
    else if 0 < d0 ∧ 0 < d1 then []
    else
      let t := d0 / (d0 - d1)
      let intersect := v0 + (v1 - v0) * t
      if d0 ≤ 0 then [v0, intersect] else [intersect, v1]
  | _ => []

/-- Incident edge of a box against a reference normal,
`compute_incident_edge` (src/core/collision/box_box.rs:54-100). -/
def compute_incident_edge (center : Vec2) (rot : Mat2) (half_extents : Vec2)
    (ref_normal : Vec2) : Vec2 × Vec2 :=
  let inv_rot := rot.transpose
  let local_n := inv_rot.mul_vec2 ref_normal
  let vs : Vec2 × Vec2 :=
    if |local_n.x| > |local_n.y| then
      if 0 < local_n.x then
        (⟨-half_extents.x, half_extents.y⟩, ⟨-half_extents.x, -half_extents.y⟩)
      else
        (⟨half_extents.x, -half_extents.y⟩, ⟨half_extents.x, half_extents.y⟩)
    else
      if 0 < local_n.y then
        (⟨half_extents.x, -half_extents.y⟩, ⟨-half_extents.x, -half_extents.y⟩)
      else
        (⟨-half_extents.x, half_extents.y⟩, ⟨half_extents.x, half_extents.y⟩)
  (rot.mul_vec2 vs.1 + center, rot.mul_vec2 vs.2 + center)

/-- Axis-of-maximum-separation fold of `box_box::detect`
(src/core/collision/box_box.rs:165-176); the `Option` accumulator models the
`-f32::INFINITY` start (`none` loses every `sep > max_sep` comparison). -/
def sat_best_axis (axes : List (ℕ × ℚ)) : ℕ :=
  (axes.foldl
    (fun acc p =>
      match acc.2 with
      | none => (p.1, some p.2)
      | some m => if m < p.2 then (p.1, some p.2) else acc)
    ((0 : ℕ), (none : Option ℚ))).1

/-- SAT face separations of `box_box::detect`
(src/core/collision/box_box.rs:113-162), as the quadruple
`(face_a_x, face_a_y, face_b_x, face_b_y)`. -/
def box_box_faces (cosf sinf : ℚ → ℚ) (center_a : Vec2) (angle_a : ℚ)
    (half_extents_a : Vec2) (center_b : Vec2) (angle_b : ℚ) (half_extents_b : Vec2) :
    ℚ × ℚ × ℚ × ℚ :=
  let rot_a := Mat2.rotation cosf sinf angle_a
  let rot_b := Mat2.rotation cosf sinf angle_b
  let rot_a_t := rot_a.transpose
  let rot_b_t := rot_b.transpose
  let dp := center_b - center_a
  let dp_a := rot_a_t.mul_vec2 dp
  let dp_b := rot_b_t.mul_vec2 dp
  let c_ab := rot_a_t.mul_mat2 rot_b
  let abs_c : Mat2 := ⟨|c_ab.m00|, |c_ab.m01|, |c_ab.m10|, |c_ab.m11|⟩
  let abs_c_t := abs_c.transpose
  (|dp_a.x| - (half_extents_a.x + abs_c.m00 * half_extents_b.x + abs_c.m01 * half_extents_b.y),
   |dp_a.y| - (half_extents_a.y + abs_c.m10 * half_extents_b.x + abs_c.m11 * half_extents_b.y),
   |dp_b.x| - (half_extents_b.x + abs_c_t.m00 * half_extents_a.x + abs_c_t.m01 * half_extents_a.y),
   |dp_b.y| - (half_extents_b.y + abs_c_t.m10 * half_extents_a.x + abs_c_t.m11 * half_extents_a.y))

/-- Reference-face selection of `box_box::detect`
(src/core/collision/box_box.rs:164-216): the axis of maximum separation fixes
`(ref_poly_idx, ref_normal)` - `0` with the outward face normal of box `a`
when the best axis lies on `a`, else `1` with the outward face normal of box
`b`. -/
def box_box_reference (cosf sinf : ℚ → ℚ) (center_a : Vec2) (angle_a : ℚ)
    (half_extents_a : Vec2) (center_b : Vec2) (angle_b : ℚ) (half_extents_b : Vec2) :
    ℕ × Vec2 :=
  let rot_a := Mat2.rotation cosf sinf angle_a
  let rot_b := Mat2.rotation cosf sinf angle_b
  let dp := center_b - center_a
  let dp_a := rot_a.transpose.mul_vec2 dp
  let dp_b := rot_b.transpose.mul_vec2 dp
  let f := box_box_faces cosf sinf center_a angle_a half_extents_a center_b angle_b half_extents_b
  let best_axis := sat_best_axis [(0, f.1), (1, f.2.1), (2, f.2.2.1), (3, f.2.2.2)]
  if best_axis < 2 then
    (0,
      if best_axis = 0 then
        if 0 < dp_a.x then ⟨rot_a.m00, rot_a.m10⟩ else ⟨-rot_a.m00, -rot_a.m10⟩
      else
        if 0 < dp_a.y then ⟨rot_a.m01, rot_a.m11⟩ else ⟨-rot_a.m01, -rot_a.m11⟩)
  else
    (1,
      if best_axis = 2 then
        if 0 < dp_b.x then ⟨rot_b.m00, rot_b.m10⟩ else ⟨-rot_b.m00, -rot_b.m10⟩
      else
        if 0 < dp_b.y then ⟨rot_b.m01, rot_b.m11⟩ else ⟨-rot_b.m01, -rot_b.m11⟩)

/-- World-space incident edge of `box_box::detect`
(src/core/collision/box_box.rs:218-224): the incident box is `b` when the
reference is `a` and vice versa. -/
def box_box_incident_edge (cosf sinf : ℚ → ℚ) (center_a : Vec2) (angle_a : ℚ)
    (half_extents_a : Vec2) (center_b : Vec2) (angle_b : ℚ) (half_extents_b : Vec2) :
    Vec2 × Vec2 :=
  let rp := box_box_reference cosf sinf center_a angle_a half_extents_a
    center_b angle_b half_extents_b
  let inc : Vec2 × Vec2 × Mat2 :=
    if rp.1 = 0 then (half_extents_b, center_b, Mat2.rotation cosf sinf angle_b)
    else (half_extents_a, center_a, Mat2.rotation cosf sinf angle_a)
  compute_incident_edge inc.2.1 inc.2.2 inc.1 rp.2

/-- Reference box data `(ref_center, ref_rot, ref_h)` of `box_box::detect`
(src/core/collision/box_box.rs:226-232). -/
def box_box_ref_frame (cosf sinf : ℚ → ℚ) (center_a : Vec2) (angle_a : ℚ)
    (half_extents_a : Vec2) (center_b : Vec2) (angle_b : ℚ) (half_extents_b : Vec2) :
    Vec2 × Mat2 × Vec2 :=
  if (box_box_reference cosf sinf center_a angle_a half_extents_a
      center_b angle_b half_extents_b).1 = 0 then
    (center_a, Mat2.rotation cosf sinf angle_a, half_extents_a)
  else
    (center_b, Mat2.rotation cosf sinf angle_b, half_extents_b)

/-- Side planes and front offset of `box_box::detect`
(src/core/collision/box_box.rs:240-262), as
`(side_n1, offset1, side_n2, offset2, front_offset)`. -/
def box_box_sides (cosf sinf : ℚ → ℚ) (center_a : Vec2) (angle_a : ℚ)
    (half_extents_a : Vec2) (center_b : Vec2) (angle_b : ℚ) (half_extents_b : Vec2) :
    Vec2 × ℚ × Vec2 × ℚ × ℚ :=
  let refd := box_box_ref_frame cosf sinf center_a angle_a half_extents_a
    center_b angle_b half_extents_b
  let ref_normal_local := refd.2.1.transpose.mul_vec2
    (box_box_reference cosf sinf center_a angle_a half_extents_a
      center_b angle_b half_extents_b).2
  if |ref_normal_local.x| > |ref_normal_local.y| then
    (⟨0, 1⟩, refd.2.2.y, ⟨0, -1⟩, refd.2.2.y, refd.2.2.x)
  else
    (⟨1, 0⟩, refd.2.2.x, ⟨-1, 0⟩, refd.2.2.x, refd.2.2.y)

/-- First clip of the incident edge (against `side_n1`) of `box_box::detect`
(src/core/collision/box_box.rs:234-238 and 264-265), in the reference local
frame. -/
def box_box_clip1 (cosf sinf : ℚ → ℚ) (center_a : Vec2) (angle_a : ℚ)
    (half_extents_a : Vec2) (center_b : Vec2) (angle_b : ℚ) (half_extents_b : Vec2) :
    List Vec2 :=
  let refd := box_box_ref_frame cosf sinf center_a angle_a half_extents_a
    center_b angle_b half_extents_b
  let ie := box_box_incident_edge cosf sinf center_a angle_a half_extents_a
    center_b angle_b half_extents_b
  let sides := box_box_sides cosf sinf center_a angle_a half_extents_a
    center_b angle_b half_extents_b
  clip_segment_to_line
    [refd.2.1.transpose.mul_vec2 (ie.1 - refd.1), refd.2.1.transpose.mul_vec2 (ie.2 - refd.1)]
    sides.1 sides.2.1

/-- Second clip (against `side_n2`) of `box_box::detect`
(src/core/collision/box_box.rs:270-271). -/
def box_box_clip2 (cosf sinf : ℚ → ℚ) (center_a : Vec2) (angle_a : ℚ)
    (half_extents_a : Vec2) (center_b : Vec2) (angle_b : ℚ) (half_extents_b : Vec2) :
    List Vec2 :=
  let sides := box_box_sides cosf sinf center_a angle_a half_extents_a
    center_b angle_b half_extents_b
  clip_segment_to_line
    (box_box_clip1 cosf sinf center_a angle_a half_extents_a center_b angle_b half_extents_b)
    sides.2.2.1 sides.2.2.2.1

/-- Contact points kept behind the reference face in `box_box::detect`
(src/core/collision/box_box.rs:276-287): clipped vertices with signed distance
`≤ 0` from the front plane, mapped back to world space with
`penetration = -separation`. -/
def box_box_contacts (cosf sinf : ℚ → ℚ) (center_a : Vec2) (angle_a : ℚ)
    (half_extents_a : Vec2) (center_b : Vec2) (angle_b : ℚ) (half_extents_b : Vec2) :
    List ContactPoint :=
  let refd := box_box_ref_frame cosf sinf center_a angle_a half_extents_a
    center_b angle_b half_extents_b
  let ref_normal_local := refd.2.1.transpose.mul_vec2
    (box_box_reference cosf sinf center_a angle_a half_extents_a
      center_b angle_b half_extents_b).2
  let front := (box_box_sides cosf sinf center_a angle_a half_extents_a
    center_b angle_b half_extents_b).2.2.2.2
  (box_box_clip2 cosf sinf center_a angle_a half_extents_a
    center_b angle_b half_extents_b).filterMap (fun v =>
      let separation := ref_normal_local.dot v - front
      if separation ≤ 0 then
        some (⟨refd.2.1.mul_vec2 v + refd.1, -separation⟩ : ContactPoint)
      else none)

/-- Box/box narrow phase, `box_box::detect`
(src/core/collision/box_box.rs:105-301): SAT early-outs on the four face
separations, then the incident-edge clipping pipeline of the named helpers,
a guard on degenerate clips, a guard on an empty contact set, and a final
normal flipped so it points from `a` to `b`. Like its circle counterparts the
checked-in function takes no speculative distance (its caller passes one). -/
def box_box_detect (cosf sinf : ℚ → ℚ) (center_a : Vec2) (angle_a : ℚ)
    (half_extents_a : Vec2) (center_b : Vec2) (angle_b : ℚ) (half_extents_b : Vec2) :
    Option (Vec2 × List ContactPoint) :=
  let f := box_box_faces cosf sinf center_a angle_a half_extents_a
    center_b angle_b half_extents_b
  if 0 < f.1 then none else
  if 0 < f.2.1 then none else
  if 0 < f.2.2.1 then none else
  if 0 < f.2.2.2 then none else
  if (box_box_clip1 cosf sinf center_a angle_a half_extents_a
      center_b angle_b half_extents_b).length < 2 then none else
  if (box_box_clip2 cosf sinf center_a angle_a half_extents_a
      center_b angle_b half_extents_b).length < 2 then none else
  let contacts := box_box_contacts cosf sinf center_a angle_a half_extents_a
    center_b angle_b half_extents_b
  if contacts.isEmpty then none
  else
    let rp := box_box_reference cosf sinf center_a angle_a half_extents_a
      center_b angle_b half_extents_b
    some ((if rp.1 = 0 then rp.2 else -rp.2), contacts)

/-- The clip returns either nothing or exactly two vertices. -/
theorem clip_segment_length (v_in : List Vec2) (normal : Vec2) (offset : ℚ) :
    (clip_segment_to_line v_in normal offset).length = 0 ∨
    (clip_segment_to_line v_in normal offset).length = 2 := by
  unfold clip_segment_to_line
  match v_in with
  | [] => exact Or.inl rfl
  | [v0] => exact Or.inl rfl
  | v0 :: v1 :: rest =>
    dsimp only
    split
    · exact Or.inr rfl
    · split
      · exact Or.inl rfl
      · split
        · exact Or.inr rfl
        · exact Or.inr rfl

/-- Lengths of the second clip are zero or two. -/
theorem box_box_clip2_length (cosf sinf : ℚ → ℚ) (center_a : Vec2) (angle_a : ℚ)
    (half_extents_a : Vec2) (center_b : Vec2) (angle_b : ℚ) (half_extents_b : Vec2) :
    (box_box_clip2 cosf sinf center_a angle_a half_extents_a
      center_b angle_b half_extents_b).length = 0 ∨
    (box_box_clip2 cosf sinf center_a angle_a half_extents_a
      center_b angle_b half_extents_b).length = 2 := by
  simp only [box_box_clip2]
  exact clip_segment_length _ _ _

/-- C8. Whenever `box_box::detect` returns a manifold, the contact list holds
exactly one or two points, and the returned normal is the reference-face
normal `N` when the reference body is `a` (`ref_poly_idx = 0`) and `-N` when
the reference body is `b`. -/
theorem box_box_manifold_shape (cosf sinf : ℚ → ℚ) (center_a : Vec2) (angle_a : ℚ)
    (half_extents_a : Vec2) (center_b : Vec2) (angle_b : ℚ) (half_extents_b : Vec2)
    (n : Vec2) (cts : List ContactPoint)
    (h : box_box_detect cosf sinf center_a angle_a half_extents_a
      center_b angle_b half_extents_b = some (n, cts)) :
    (cts.length = 1 ∨ cts.length = 2) ∧
    ((box_box_reference cosf sinf center_a angle_a half_extents_a
        center_b angle_b half_extents_b).1 = 0 →
      n = (box_box_reference cosf sinf center_a angle_a half_extents_a
        center_b angle_b half_extents_b).2) ∧
    ((box_box_reference cosf sinf center_a angle_a half_extents_a
        center_b angle_b half_extents_b).1 ≠ 0 →
      n = -(box_box_reference cosf sinf center_a angle_a half_extents_a
        center_b angle_b half_extents_b).2) := by
  simp only [box_box_detect] at h
  split at h
  · cases h
  split at h
  · cases h
  split at h
  · cases h
  split at h
  · cases h
  split at h
  · cases h
  split at h
  · cases h
  rename_i hclip2
  split at h
  · cases h
  rename_i hne
  rw [Option.some.injEq, Prod.mk.injEq] at h
  obtain ⟨hn, hcts⟩ := h
  have hlen2 : (box_box_clip2 cosf sinf center_a angle_a half_extents_a
      center_b angle_b half_extents_b).length = 2 := by
    rcases box_box_clip2_length cosf sinf center_a angle_a half_extents_a
        center_b angle_b half_extents_b with h0 | h2
    · exact absurd (by omega) hclip2
    · exact h2
  constructor
  · have hle : cts.length ≤ 2 := by
      rw [← hcts]
      simp only [box_box_contacts]
      calc (List.filterMap _ _).length
          ≤ _ := List.length_filterMap_le _ _
        _ = 2 := hlen2
    have hpos : 0 < cts.length := by
      rcases Nat.eq_zero_or_pos cts.length with h0 | hp
      · exfalso
        apply hne
        rw [← hcts] at h0
        exact List.isEmpty_iff.mpr (List.length_eq_zero.mp h0)
      · exact hp
    omega
  · constructor
    · intro h0
      rw [← hn, if_pos h0]
    · intro h0
      rw [← hn, if_neg h0]

/-- Witness for the box/box manifold shape: two axis-aligned unit-half-extent
boxes at `(0,0)` and `(1,0)` produce the two-point manifold with normal
`(1,0)` (the reference face is on box `a`). -/
theorem box_box_manifold_shape_witness :
    box_box_detect cosZ sinZ ⟨0, 0⟩ 0 ⟨1, 1⟩ ⟨1, 0⟩ 0 ⟨1, 1⟩
      = some (⟨1, 0⟩, [⟨⟨0, 1⟩, 1⟩, ⟨⟨0, -1⟩, 1⟩]) ∧
    (([⟨⟨0, 1⟩, 1⟩, ⟨⟨0, -1⟩, 1⟩] : List ContactPoint).length = 1 ∨
      ([⟨⟨0, 1⟩, 1⟩, ⟨⟨0, -1⟩, 1⟩] : List ContactPoint).length = 2) := by
  have hEq : box_box_detect cosZ sinZ ⟨0, 0⟩ 0 ⟨1, 1⟩ ⟨1, 0⟩ 0 ⟨1, 1⟩
      = some (⟨1, 0⟩, [⟨⟨0, 1⟩, 1⟩, ⟨⟨0, -1⟩, 1⟩]) := by
    norm_num [box_box_detect, box_box_faces, box_box_reference, box_box_incident_edge,
      box_box_ref_frame, box_box_sides, box_box_clip1, box_box_clip2, box_box_contacts,
      sat_best_axis, compute_incident_edge, clip_segment_to_line, Mat2.rotation,
      Mat2.transpose, Mat2.mul_vec2, Mat2.mul_mat2, Vec2.dot, cosZ, sinZ, List.filterMap]
  exact ⟨hEq, (box_box_manifold_shape cosZ sinZ _ _ _ _ _ _ _ _ hEq).1⟩

/-- Global simulation parameters (`SimParams`, src/core/params.rs:5-13). -/
structure SimParams where
  speculative_distance : ℚ
deriving DecidableEq, Repr

/-- Default `SimParams` (src/core/params.rs:15-21): `speculative_distance = 0.05`. -/
def SimParams.default : SimParams := ⟨1 / 20⟩

/-- Integrator selector (`Integrator`, src/core/integrator.rs:3-8). -/
inductive Integrator where
  | explicitEuler
  | semiImplicitEuler
deriving DecidableEq, Repr

/-- Velocity integration, `integrate_velocity` (src/core/integrator.rs:13-25):
no-op for `dt ≤ 0`, otherwise `vel += force·inv_mass·dt`,
`omega += torque·inv_inertia·dt` (both integrator variants share the body). -/
def integrate_velocity (e : Body) (dt : ℚ) (integrator : Integrator) : Body :=
  if dt ≤ 0 then e
  else
    let a := e.force * e.inv_mass
    let alpha := e.torque * e.inv_inertia
    match integrator with
    | .explicitEuler | .semiImplicitEuler =>
      { e with vel := e.vel + a * dt, omega := e.omega + alpha * dt }

/-- Oracles for the std trigonometric primitives and for the narrow-phase leaf
detectors. The current leaf detectors with a speculative-distance parameter
are repository code missing from src/ — the checked-in circle_circle.rs,
box_circle.rs and box_box.rs are stale variants without that parameter, so
they cannot be the functions called by narrow_phase.rs:18-61 — hence the
leaves are kept abstract and every theorem below holds for all of them. -/
structure Oracles where
  cosf : ℚ → ℚ
  sinf : ℚ → ℚ
  circleDetect : Vec2 → ℚ → Vec2 → ℚ → ℚ → Option (Vec2 × ContactPoint)
  boxCircleDetect : Vec2 → ℚ → Vec2 → Vec2 → ℚ → ℚ → Option (Vec2 × ContactPoint)
  boxBoxDetect : Vec2 → ℚ → Vec2 → Vec2 → ℚ → Vec2 → ℚ → Option (Vec2 × List ContactPoint)

/-- Manifold construction for one candidate pair, `build_manifold_for_pair`
(src/core/collision/narrow_phase.rs:6-65): dispatch on the two collider tags,
with the circle/box case flipping the box/circle normal. -/
def build_manifold_for_pair (o : Oracles) (index_a index_b : ℕ) (a b : Body)
    (params : SimParams) : Option Manifold :=
  match a.collider, b.collider with
  | some (Collider2D.circle ra), some (Collider2D.circle rb) =>
    (o.circleDetect a.pos ra b.pos rb params.speculative_distance).map
      (fun nc => Manifold.new index_a index_b nc.1 [nc.2])
  | some (Collider2D.box hea), some (Collider2D.circle r) =>
    (o.boxCircleDetect a.pos a.angle hea b.pos r params.speculative_distance).map
      (fun nc => Manifold.new index_a index_b nc.1 [nc.2])
  | some (Collider2D.circle r), some (Collider2D.box heb) =>
    (o.boxCircleDetect b.pos b.angle heb a.pos r params.speculative_distance).map
      (fun nc => Manifold.new index_a index_b (-nc.1) [nc.2])
  | some (Collider2D.box hea), some (Collider2D.box heb) =>
    (o.boxBoxDetect a.pos a.angle hea b.pos b.angle heb params.speculative_distance).map
      (fun nc => Manifold.new index_a index_b nc.1 nc.2)
  | _, _ => none

/-- Narrow phase over the candidate pairs, `narrow_phase::detect`
(src/core/collision/narrow_phase.rs:67-80): out-of-range pairs are skipped. -/
def narrow_phase_detect (o : Oracles) (entities : List Body) (pairs : List (ℕ × ℕ))
    (params : SimParams) : List Manifold :=
  pairs.filterMap (fun p =>
    match entities.get? p.1, entities.get? p.2 with
    | some a, some b => build_manifold_for_pair o p.1 p.2 a b params
    | _, _ => none)

/-- World state (`World`, src/core/world.rs:9-17). The Rust struct also holds
a list of boxed user force generators; this model covers worlds with no
registered generators, for which the stage-(2b) loop of `World::step` is a
no-op. -/
structure World where
  gravity : Vec2
  integrator : Integrator
  params : SimParams
  entities : List Body
  solver : ConstraintSolver
  manifolds : List Manifold

/-- Constructor `World::new(gravity, integrator)` (src/core/world.rs:20-30):
default `SimParams`, and a `ConstraintSolver` with 10 iterations and default
`SolverParams`. -/
def World.new (gravity : Vec2) (integrator : Integrator) : World :=
  ⟨gravity, integrator, SimParams.default, [], ConstraintSolver.new 10, []⟩

/-- Stages (1)-(2) of `World::step` (src/core/world.rs:52-64): clear the
force and torque accumulators (`clear_forces`, `clear_torque`,
src/core/entity.rs:13-15 and 24-26), then add `gravity · mass` to the force
of every body with positive inverse mass. -/
def clear_then_gravity (gravity : Vec2) (entities : List Body) : List Body :=
  (entities.map (fun e => { e with force := Vec2.zero, torque := 0 })).map
    (fun e => if 0 < e.inv_mass then { e with force := e.force + gravity * (1 / e.inv_mass) }
              else e)

/-- Simulation step, `World::step` (src/core/world.rs:47-94): early return on
`dt ≤ 0`, accumulator clear + gravity, velocity integration, broad phase
(the present one-argument `detect_sap`; the caller-side two-argument variant
is missing from src/), narrow phase, constraint build, solve, and position
integration (unconditionally for every body). -/
def World.step (o : Oracles) (w : World) (dt : ℚ) : World :=
  if dt ≤ 0 then w
  else
    let entities2 := clear_then_gravity w.gravity w.entities
    let entities3 := entities2.map (fun e => integrate_velocity e dt w.integrator)
    let pairs := detect_sap o.cosf o.sinf entities3
    let manifolds := narrow_phase_detect o entities3 pairs w.params
    let solver1 := w.solver.build_constraints o.cosf o.sinf manifolds entities3 dt
    let r := solver1.solve o.cosf o.sinf entities3
    let entities4 := r.2.map
      (fun e => { e with pos := e.pos + e.vel * dt, angle := e.angle + e.omega * dt })
    { w with entities := entities4, manifolds := manifolds, solver := r.1 }

/-- IEEE `f32` values as far as the step guard is concerned: finite values
(modelled exactly by ℚ), the two infinities, and NaN. -/
inductive F32 where
  | finite (q : ℚ)
  | nan
  | posInf
  | negInf
deriving DecidableEq, Repr

/-- IEEE evaluation of the guard `dt <= 0.0` of `World::step`
(src/core/world.rs:48): false for NaN (all comparisons with NaN are false)
and for `+∞`, true for `-∞` and for finite `dt ≤ 0`. -/
def F32.leZero : F32 → Bool
  | .finite q => decide (q ≤ 0)
  | .nan => false
  | .posInf => false
  | .negInf => true

/-- Force observable of `World::step(dt)` for a possibly non-finite `dt`:
if the guard `dt <= 0.0` fires the forces are untouched, otherwise they are
exactly the output of stages (1)-(2), which do not read `dt`. Stages (3)-(6)
of `World::step` never write `force` or `torque` (velocity integration reads
them, the solver writes only `vel`/`omega`, position integration writes only
`pos`/`angle`), so this projection is faithful even when `dt` is NaN or
infinite and the velocity/position updates leave ℚ. -/
def World.step_forces (w : World) (dt : F32) : List Vec2 :=
  if dt.leZero then w.entities.map (fun e => e.force)
  else (clear_then_gravity w.gravity w.entities).map (fun e => e.force)

/-- Oracle instance with zero-angle trig and narrow-phase leaves that report
no contact. -/
def oraclesZ : Oracles :=
  ⟨cosZ, sinZ, fun _ _ _ _ _ => none, fun _ _ _ _ _ _ => none, fun _ _ _ _ _ _ _ => none⟩

/-- C9 counterexample. The Baumgarte factor of a freshly constructed world is
`bias_rate = 0.05`, which is not approximately `0.2`: it differs from `0.2`
by `0.15`, three times the claimed value's distance to zero tolerance of
`0.05`. -/
theorem world_new_bias_rate_not_a_fifth :
    (World.new ⟨0, -981 / 100⟩ Integrator.semiImplicitEuler).solver.params.bias_rate = 1 / 20 ∧
    |(1 / 20 : ℚ) - 1 / 5| = 3 / 20 ∧ (1 / 10 : ℚ) < 3 / 20 := by
  refine ⟨rfl, ?_, by norm_num⟩
  rw [abs_of_nonpos (by norm_num)]
  norm_num

/-- C9 (amended). A world constructed by `new(gravity, integrator)` uses the
default solver parameters with Baumgarte factor `0.05` (not `≈ 0.2`), slop
`0.01 m`, maximum bias velocity `4 m/s` (inside the claimed 2-4 m/s range),
restitution threshold `1 m/s`, speculative distance `0.05 m`, and 10 solver
iterations. -/
theorem world_new_defaults (g : Vec2) (integ : Integrator) :
    (World.new g integ).solver.params.bias_rate = 1 / 20 ∧
    (World.new g integ).solver.params.slop = 1 / 100 ∧
    (World.new g integ).solver.params.max_bias_velocity = 4 ∧
    ((2 : ℚ) ≤ (World.new g integ).solver.params.max_bias_velocity ∧
      (World.new g integ).solver.params.max_bias_velocity ≤ 4) ∧
    (World.new g integ).solver.params.restitution_threshold = 1 ∧
    (World.new g integ).params.speculative_distance = 1 / 20 ∧
    (World.new g integ).solver.iterations = 10 :=
  ⟨rfl, rfl, rfl, ⟨by norm_num [World.new, ConstraintSolver.new, SolverParams.default],
    by norm_num [World.new, ConstraintSolver.new, SolverParams.default]⟩, rfl, rfl, rfl⟩

/-- C6 (amended). The step is a no-op exactly when the IEEE comparison
`dt <= 0.0` holds: for every finite `dt ≤ 0` the world is returned unchanged;
the comparison is false for NaN and `+∞` (so such steps proceed), and true
for `-∞` and finite non-positive values; when the guard fails the force
accumulators afterwards are exactly the output of the clear-gravity stages. -/
theorem world_step_noop_guard :
    (∀ (o : Oracles) (w : World) (dt : ℚ), dt ≤ 0 → World.step o w dt = w) ∧
    (∀ q : ℚ, F32.leZero (F32.finite q) = decide (q ≤ 0)) ∧
    F32.leZero F32.nan = false ∧
    F32.leZero F32.posInf = false ∧
    F32.leZero F32.negInf = true ∧
    (∀ (w : World) (dt : F32), dt.leZero = false →
      World.step_forces w dt
        = (clear_then_gravity w.gravity w.entities).map (fun e => e.force)) := by
  refine ⟨?_, fun _ => rfl, rfl, rfl, rfl, ?_⟩
  · intro o w dt h
    unfold World.step
    rw [if_pos h]
  · intro w dt h
    unfold World.step_forces
    rw [h]
    simp

/-- Witness for the step guard: a step with `dt = -1` leaves a fresh world
unchanged. -/
theorem world_step_noop_guard_witness :
    ((-1 : ℚ) ≤ 0) ∧
    World.step oraclesZ (World.new ⟨0, 0⟩ Integrator.semiImplicitEuler) (-1)
      = World.new ⟨0, 0⟩ Integrator.semiImplicitEuler :=
  ⟨by norm_num,
    world_step_noop_guard.1 oraclesZ (World.new ⟨0, 0⟩ Integrator.semiImplicitEuler) (-1)
      (by norm_num)⟩

/-- Sample static body carrying a non-zero accumulated force. -/
def bodyForced : Body := { bodyStatic with force := ⟨1, 0⟩ }

/-- Sample world holding only `bodyForced`. -/
def worldForced : World :=
  { gravity := ⟨0, -981 / 100⟩, integrator := .semiImplicitEuler, params := SimParams.default,
    entities := [bodyForced], solver := ConstraintSolver.new 10, manifolds := [] }

/-- C6 counterexample. The guard `dt <= 0.0` is false for NaN (and `+∞`), so
`step(NaN)` is not a no-op: it clears the force accumulators, changing the
stored force of `worldForced`'s body from `(1,0)` to `(0,0)`. -/
theorem world_step_nan_not_noop :
    F32.leZero F32.nan = false ∧
    F32.leZero F32.posInf = false ∧
    World.step_forces worldForced F32.nan = [⟨0, 0⟩] ∧
    worldForced.entities.map (fun e => e.force) = [⟨1, 0⟩] ∧
    ([(⟨0, 0⟩ : Vec2)] ≠ [(⟨1, 0⟩ : Vec2)]) := by
  refine ⟨rfl, rfl, ?_, ?_, ?_⟩
  · norm_num [World.step_forces, F32.leZero, clear_then_gravity, worldForced, bodyForced,
      bodyStatic, Vec2.zero]
  · norm_num [worldForced, bodyForced, bodyStatic]
  · norm_num [Vec2.mk.injEq]

/-- The biased solver rounds do nothing on an empty constraint list. -/
theorem solve_rounds_nil (cosf sinf : ℚ → ℚ) (dt : ℚ) (params : SolverParams) :
    ∀ (n : ℕ) (ctx : SolverCtx), solve_rounds cosf sinf dt params n ([], ctx) = ([], ctx) := by
  intro n
  induction n with
  | zero => intro ctx; rfl
  | succ n ih =>
    intro ctx
    show solve_rounds cosf sinf dt params n _ = _
    have h1 : normal_pass cosf sinf [] ctx dt params true = ([], ctx) := rfl
    have h2 : tangent_pass cosf sinf [] ctx dt params.friction = ([], ctx) := rfl
    rw [h1, h2]
    exact ih ctx

/-- Sample static body with a non-zero velocity. -/
def bodyMoving : Body := { bodyStatic with vel := ⟨1, 0⟩ }

/-- Sample world holding only `bodyMoving`. -/
def worldMoving : World := { worldForced with entities := [bodyMoving] }

/-- C7 counterexample. A static body (`inv_mass = inv_inertia = 0`) with a
non-zero velocity is moved by `step(1)`: the unconditional position
integration (world.rs:88-93) advances its position from `(0,0)` to `(1,0)`,
although gravity and all impulses leave its velocity untouched. -/
theorem static_body_with_velocity_moves :
    bodyMoving.inv_mass = 0 ∧ bodyMoving.inv_inertia = 0 ∧
    (World.step oraclesZ worldMoving 1).entities.map (fun e => e.pos) = [⟨1, 0⟩] ∧
    worldMoving.entities.map (fun e => e.pos) = [⟨0, 0⟩] ∧
    ([(⟨1, 0⟩ : Vec2)] ≠ [(⟨0, 0⟩ : Vec2)]) := by
  refine ⟨rfl, rfl, ?_, by norm_num [worldMoving, bodyMoving, bodyStatic], ?_⟩
  · norm_num [World.step, clear_then_gravity, integrate_velocity, detect_sap, sap_step,
      narrow_phase_detect, ConstraintSolver.build_constraints, ConstraintSolver.solve,
      solve_rounds_nil, restitution_pass, init_predicted_deltas, warmCache, resizeTo,
      worldMoving, worldForced, bodyMoving, bodyStatic, oraclesZ, entity_aabb,
      Collider2D.aabb, List.enum_cons, List.mergeSort_singleton, Vec2.zero,
      SimParams.default, ConstraintSolver.new, cosZ, sinZ]
  · norm_num [Vec2.mk.injEq]

/-- Inversion of a successful pair lookup. -/
theorem get_pair_eq (entities : List Body) (i j : ℕ) (a b : Body)
    (h : get_pair entities i j = some (a, b)) :
    i ≠ j ∧ entities.get? i = some a ∧ entities.get? j = some b := by
  unfold get_pair at h
  split at h
  · cases h
  rename_i hij
  cases hga : entities.get? i <;> cases hgb : entities.get? j <;> rw [hga, hgb] at h <;>
    cases h
  exact ⟨hij, rfl, rfl⟩

/-- An impulse applied to a static first body leaves it unchanged. -/
theorem apply_impulse_static_fst (a b : Body) (r_a r_b dir : Vec2) (mag : ℚ)
    (hm : a.inv_mass = 0) (hI : a.inv_inertia = 0) :
    (apply_impulse_pair a b r_a r_b dir mag).1 = a := by
  unfold apply_impulse_pair
  cases a
  simp only at hm hI
  subst hm
  subst hI
  simp [mul_zero, zero_mul, sub_zero]

/-- An impulse applied to a static second body leaves it unchanged. -/
theorem apply_impulse_static_snd (a b : Body) (r_a r_b dir : Vec2) (mag : ℚ)
    (hm : b.inv_mass = 0) (hI : b.inv_inertia = 0) :
    (apply_impulse_pair a b r_a r_b dir mag).2 = b := by
  unfold apply_impulse_pair
  cases b
  simp only at hm hI
  subst hm
  subst hI
  simp [mul_zero, zero_mul, add_zero]

/-- Writing a pair back preserves position `i` when any write hitting `i`
writes back the value already there. -/
theorem set_pair_preserve (entities : List Body) (ia ib i : ℕ) (b A B : Body)
    (hbi : entities.get? i = some b) (hA : ia = i → A = b) (hB : ib = i → B = b) :
    (set_pair entities ia ib A B).get? i = some b := by
  unfold set_pair
  have hlen : i < entities.length := by
    rw [List.get?_eq_getElem?] at hbi
    exact (List.getElem?_eq_some_iff.mp hbi).1
  rw [List.get?_eq_getElem?]
  by_cases hib : ib = i
  · subst hib
    rw [List.getElem?_set_self (by simpa using hlen), hB rfl]
  · rw [List.getElem?_set_ne hib]
    by_cases hia : ia = i
    · subst hia
      rw [List.getElem?_set_self hlen, hA rfl]
    · rw [List.getElem?_set_ne hia, ← List.get?_eq_getElem?]
      exact hbi

/-- The normal solve never changes a static body. -/
theorem solve_normal_static (cosf sinf : ℚ → ℚ) (c : ContactConstraint) (ctx : SolverCtx)
    (dt : ℚ) (params : SolverParams) (use_bias : Bool) (i : ℕ) (b : Body)
    (hbi : ctx.entities.get? i = some b) (hm : b.inv_mass = 0) (hI : b.inv_inertia = 0) :
    ((c.solve_normal cosf sinf ctx dt params use_bias).2).entities.get? i = some b := by
  unfold ContactConstraint.solve_normal
  cases hgp : get_pair ctx.entities c.index_a c.index_b with
  | none => exact hbi
  | some ab =>
    obtain ⟨a', b'⟩ := ab
    obtain ⟨hne, hga, hgb⟩ := get_pair_eq _ _ _ _ _ hgp
    apply set_pair_preserve _ _ _ _ _ _ _ hbi
    · intro hia
      have ha' : a' = b := by
        rw [hia] at hga
        rw [hga] at hbi
        exact Option.some.inj hbi
      subst ha'
      exact apply_impulse_static_fst _ _ _ _ _ _ hm hI
    · intro hib
      have hb' : b' = b := by
        rw [hib] at hgb
        rw [hgb] at hbi
        exact Option.some.inj hbi
      subst hb'
      exact apply_impulse_static_snd _ _ _ _ _ _ hm hI

/-- The tangent solve never changes a static body. -/
theorem solve_tangent_static (cosf sinf : ℚ → ℚ) (c : ContactConstraint) (ctx : SolverCtx)
    (dt friction : ℚ) (i : ℕ) (b : Body)
    (hbi : ctx.entities.get? i = some b) (hm : b.inv_mass = 0) (hI : b.inv_inertia = 0) :
    ((c.solve_tangent cosf sinf ctx dt friction).2).entities.get? i = some b := by
  unfold ContactConstraint.solve_tangent
  cases hgp : get_pair ctx.entities c.index_a c.index_b with
  | none => exact hbi
  | some ab =>
    obtain ⟨a', b'⟩ := ab
    obtain ⟨hne, hga, hgb⟩ := get_pair_eq _ _ _ _ _ hgp
    apply set_pair_preserve _ _ _ _ _ _ _ hbi
    · intro hia
      have ha' : a' = b := by
        rw [hia] at hga
        rw [hga] at hbi
        exact Option.some.inj hbi
      subst ha'
      exact apply_impulse_static_fst _ _ _ _ _ _ hm hI
    · intro hib
      have hb' : b' = b := by
        rw [hib] at hgb
        rw [hgb] at hbi
        exact Option.some.inj hbi
      subst hb'
      exact apply_impulse_static_snd _ _ _ _ _ _ hm hI

/-- The restitution solve never changes a static body. -/
theorem apply_restitution_static (cosf sinf : ℚ → ℚ) (c : ContactConstraint)
    (ctx : SolverCtx) (dt restitution threshold : ℚ) (i : ℕ) (b : Body)
    (hbi : ctx.entities.get? i = some b) (hm : b.inv_mass = 0) (hI : b.inv_inertia = 0) :
    ((c.apply_restitution cosf sinf ctx dt restitution threshold).2).entities.get? i
      = some b := by
  unfold ContactConstraint.apply_restitution
  split
  · exact hbi
  split
  · exact hbi
  split
  · exact hbi
  cases hgp : get_pair ctx.entities c.index_a c.index_b with
  | none => exact hbi
  | some ab =>
    obtain ⟨a', b'⟩ := ab
    obtain ⟨hne, hga, hgb⟩ := get_pair_eq _ _ _ _ _ hgp
    apply set_pair_preserve _ _ _ _ _ _ _ hbi
    · intro hia
      have ha' : a' = b := by
        rw [hia] at hga
        rw [hga] at hbi
        exact Option.some.inj hbi
      subst ha'
      exact apply_impulse_static_fst _ _ _ _ _ _ hm hI
    · intro hib
      have hb' : b' = b := by
        rw [hib] at hgb
        rw [hgb] at hbi
        exact Option.some.inj hbi
      subst hb'
      exact apply_impulse_static_snd _ _ _ _ _ _ hm hI

/-- The warm-start application never changes a static body. -/
theorem apply_warm_start_static (cosf sinf : ℚ → ℚ) (c : ContactConstraint)
    (entities : List Body) (i : ℕ) (b : Body)
    (hbi : entities.get? i = some b) (hm : b.inv_mass = 0) (hI : b.inv_inertia = 0) :
    (c.apply_warm_start cosf sinf entities).get? i = some b := by
  unfold ContactConstraint.apply_warm_start
  split
  · exact hbi
  cases hgp : get_pair entities c.index_a c.index_b with
  | none => exact hbi
  | some ab =>
    obtain ⟨a', b'⟩ := ab
    obtain ⟨hne, hga, hgb⟩ := get_pair_eq _ _ _ _ _ hgp
    apply set_pair_preserve _ _ _ _ _ _ _ hbi
    · intro hia
      have ha' : a' = b := by
        rw [hia] at hga
        rw [hga] at hbi
        exact Option.some.inj hbi
      subst ha'
      rw [apply_impulse_static_fst _ _ _ _ _ _ hm hI]
      exact apply_impulse_static_fst _ _ _ _ _ _ hm hI
    · intro hib
      have hb' : b' = b := by
        rw [hib] at hgb
        rw [hgb] at hbi
        exact Option.some.inj hbi
      subst hb'
      rw [apply_impulse_static_snd _ _ _ _ _ _ hm hI]
      exact apply_impulse_static_snd _ _ _ _ _ _ hm hI

/-- A context property preserved by the per-constraint solve is preserved by
the whole sweep. -/
theorem pass_fold_preserve (f : ContactConstraint → SolverCtx → ContactConstraint × SolverCtx)
    (P : SolverCtx → Prop) (hf : ∀ c ctx, P ctx → P ((f c ctx).2)) :
    ∀ (cs : List ContactConstraint) (acc : List ContactConstraint × SolverCtx), P acc.2 →
      P ((cs.foldl (fun a c => ((a.1 ++ [(f c a.2).1]), (f c a.2).2)) acc).2) := by
  intro cs
  induction cs with
  | nil => intro acc h; exact h
  | cons c0 cs ih =>
    intro acc h
    rw [List.foldl_cons]
    exact ih _ (hf c0 acc.2 h)

/-- An entity-list property preserved by one warm-start application is
preserved by the warm-start loop. -/
theorem warm_fold_preserve (cosf sinf : ℚ → ℚ) (Q : List Body → Prop)
    (hq : ∀ (c : ContactConstraint) (es : List Body), Q es →
      Q (c.apply_warm_start cosf sinf es)) :
    ∀ (cs : List ContactConstraint) (es : List Body), Q es →
      Q (cs.foldl (fun es c => c.apply_warm_start cosf sinf es) es) := by
  intro cs
  induction cs with
  | nil => intro es h; exact h
  | cons c0 cs ih =>
    intro es h
    rw [List.foldl_cons]
    exact ih _ (hq c0 es h)

/-- A context property preserved by the two sweeps is preserved by the
iteration loop. -/
theorem solve_rounds_preserve (cosf sinf : ℚ → ℚ) (dt : ℚ) (params : SolverParams)
    (P : SolverCtx → Prop)
    (hn : ∀ (cs : List ContactConstraint) (ctx : SolverCtx), P ctx →
      P ((normal_pass cosf sinf cs ctx dt params true).2))
    (ht : ∀ (cs : List ContactConstraint) (ctx : SolverCtx), P ctx →
      P ((tangent_pass cosf sinf cs ctx dt params.friction).2)) :
    ∀ (n : ℕ) (s : List ContactConstraint × SolverCtx), P s.2 →
      P ((solve_rounds cosf sinf dt params n s).2) := by
  intro n
  induction n with
  | zero => intro s h; exact h
  | succ n ih =>
    intro s h
    show P ((solve_rounds cosf sinf dt params n _).2)
    exact ih _ (ht _ _ (hn _ _ h))

/-- The full solve never changes a static body. -/
theorem solve_static (cosf sinf : ℚ → ℚ) (s : ConstraintSolver) (entities : List Body)
    (i : ℕ) (b : Body) (hbi : entities.get? i = some b) (hm : b.inv_mass = 0)
    (hI : b.inv_inertia = 0) :
    ((s.solve cosf sinf entities).2).get? i = some b := by
  have h1 : (s.constraints.foldl
      (fun es c => c.apply_warm_start cosf sinf es) entities).get? i = some b :=
    warm_fold_preserve cosf sinf (fun es => es.get? i = some b)
      (fun c es h => apply_warm_start_static cosf sinf c es i b h hm hI)
      s.constraints entities hbi
  have hP : ∀ st : List ContactConstraint × SolverCtx, st.2.entities.get? i = some b →
      ((solve_rounds cosf sinf s.dt s.params s.iterations st).2).entities.get? i = some b :=
    fun st h => solve_rounds_preserve cosf sinf s.dt s.params
      (fun ctx => ctx.entities.get? i = some b)
      (fun cs ctx h => by
        unfold normal_pass
        exact pass_fold_preserve _ (fun ctx => ctx.entities.get? i = some b)
          (fun c ctx h => solve_normal_static cosf sinf c ctx s.dt s.params true i b h hm hI)
          cs ([], ctx) h)
      (fun cs ctx h => by
        unfold tangent_pass
        exact pass_fold_preserve _ (fun ctx => ctx.entities.get? i = some b)
          (fun c ctx h => solve_tangent_static cosf sinf c ctx s.dt s.params.friction i b
            h hm hI)
          cs ([], ctx) h)
      s.iterations st h
  have hR : ∀ (cs : List ContactConstraint) (ctx : SolverCtx),
      ctx.entities.get? i = some b →
      ((restitution_pass cosf sinf cs ctx s.dt s.params.restitution
        s.params.restitution_threshold).2).entities.get? i = some b :=
    fun cs ctx h => by
      unfold restitution_pass
      exact pass_fold_preserve _ (fun ctx => ctx.entities.get? i = some b)
        (fun c ctx h => apply_restitution_static cosf sinf c ctx s.dt s.params.restitution
          s.params.restitution_threshold i b h hm hI)
        cs ([], ctx) h
  simp only [ConstraintSolver.solve]
  exact hR _ _ (hP _ h1)

/-- Velocity integration is the identity on a static body. -/
theorem integrate_velocity_static (e : Body) (dt : ℚ) (integ : Integrator)
    (hm : e.inv_mass = 0) (hI : e.inv_inertia = 0) :
    integrate_velocity e dt integ = e := by
  unfold integrate_velocity
  split
  · rfl
  · cases e
    simp only at hm hI
    subst hm
    subst hI
    cases integ <;> simp [mul_zero, zero_mul, add_zero]

/-- Bridge between `get?` and the mapped list. -/
theorem get?_map_at {α β : Type} (f : α → β) (l : List α) (i : ℕ) :
    (l.map f).get? i = (l.get? i).map f := by
  rw [List.get?_eq_getElem?, List.get?_eq_getElem?, List.getElem?_map]

/-- C7 (amended). A static body (`inv_mass = inv_inertia = 0`) keeps its
velocity and angular velocity across any `step(dt)` with `dt > 0` — gravity
skips it and every solver impulse multiplies by its zero inverse mass and
inertia — and if its velocity (resp. angular velocity) is zero, its position
(resp. angle) is also unchanged. (A static body with non-zero velocity does
move: position integration is unconditional, see the counterexample.) In
particular two static resting bodies in contact receive no impulse and do
not change state. -/
theorem static_zero_velocity_step (o : Oracles) (w : World) (dt : ℚ) (i : ℕ) (e : Body)
    (hdt : 0 < dt) (he : w.entities.get? i = some e) (hm : e.inv_mass = 0)
    (hI : e.inv_inertia = 0) :
    ∃ e', (World.step o w dt).entities.get? i = some e' ∧
      e'.vel = e.vel ∧ e'.omega = e.omega ∧ e'.inv_mass = 0 ∧ e'.inv_inertia = 0 ∧
      (e.vel = Vec2.zero → e'.pos = e.pos) ∧
      (e.omega = 0 → e'.angle = e.angle) := by
  have h2 : (clear_then_gravity w.gravity w.entities).get? i
      = some { e with force := Vec2.zero, torque := 0 } := by
    unfold clear_then_gravity
    rw [get?_map_at, get?_map_at, he]
    have hcond : ¬ (0 : ℚ) < ({ e with force := Vec2.zero, torque := 0 } : Body).inv_mass := by
      simp [hm]
    simp only [Option.map_some']
    rw [if_neg hcond]
  have h3 : ((clear_then_gravity w.gravity w.entities).map
        (fun e => integrate_velocity e dt w.integrator)).get? i
      = some { e with force := Vec2.zero, torque := 0 } := by
    rw [get?_map_at, h2]
    simp only [Option.map_some']
    rw [integrate_velocity_static { e with force := Vec2.zero, torque := 0 } dt
      w.integrator hm hI]
  simp only [World.step]
  rw [if_neg (not_le.mpr hdt)]
  rw [get?_map_at, solve_static o.cosf o.sinf _ _ i _ h3 hm hI]
  simp only [Option.map_some']
  refine ⟨_, rfl, rfl, rfl, hm, hI, ?_, ?_⟩
  · intro hv
    show e.pos + e.vel * dt = e.pos
    rw [hv]
    simp [Vec2.zero]
  · intro hw
    show e.angle + e.omega * dt = e.angle
    rw [hw]
    ring

/-- Witness for the static-body preservation at a concrete resting static
body. -/
theorem static_zero_velocity_step_witness :
    ((0 : ℚ) < 1 ∧ worldForced.entities.get? 0 = some bodyForced ∧
      bodyForced.inv_mass = 0 ∧ bodyForced.inv_inertia = 0) ∧
    ∃ e', (World.step oraclesZ worldForced 1).entities.get? 0 = some e' ∧
      e'.vel = bodyForced.vel ∧ e'.omega = bodyForced.omega ∧
      e'.inv_mass = 0 ∧ e'.inv_inertia = 0 ∧
      (bodyForced.vel = Vec2.zero → e'.pos = bodyForced.pos) ∧
      (bodyForced.omega = 0 → e'.angle = bodyForced.angle) :=
  ⟨⟨by norm_num, rfl, rfl, rfl⟩,
    static_zero_velocity_step oraclesZ worldForced 1 0 bodyForced (by norm_num) rfl rfl rfl⟩

end TinyPhys
